import Mathlib

/-!
# Verification of the gosip SIP request core

Shallow embedding of the SIP request module of `luaxlou/gosip`
(`sip/request.go`): the `request` data type, the derivation constructors
`NewAckRequest`, `NewCancelRequest`, `CopyRequest`, `Clone`, `WithFields`,
and the address-resolution algorithms `Source` / `Destination`.

Modelling conventions:
* Go machine integers are modelled as `Nat`/`Int` with explicit `% 2 ^ 16`
  where the code converts to `uint16`.
* Go functions that can panic (nil dereference, failed type assertion) are
  modelled as `Except Unit` values; `.error ()` is a panic.
* Pointer identity of mutable objects (headers and URIs) is modelled by an
  allocation identity (`Nat`) carried by every header and URI; operations
  that allocate thread an allocation counter `σ` and return the new
  counter.  Two views alias exactly when they carry the same identity.
* The globally-unique generators for message ids and Via branch tokens
  (collaborators outside the embedded module) are modelled by drawing from
  the same counter.
* Go's empty-string sentinel for a caller-supplied `MessageID` is modelled
  as `Option MessageID` (`none` = `""`).
-/

namespace Gosip

/-- Go `type Port uint16`; values are always reduced mod `2 ^ 16` where the
code converts. -/
abbrev Port := Nat

/-- Modelled from the spec: message identifiers are opaque globally unique
values produced by a collaborator generator (`NextMessageID`); we model them
as the values of a monotone counter. -/
abbrev MessageID := Nat

/-- Go `type RequestMethod string`. -/
abbrev RequestMethod := String

def INVITE : RequestMethod := "INVITE"

def ACK : RequestMethod := "ACK"

def CANCEL : RequestMethod := "CANCEL"

/-- Go `MaybeString` interface value stored for a header parameter:
`none` models a nil interface value (a parameter that was present without
any value), `some s` models `String{Str: s}`. -/
abbrev MaybeString := Option String

/-- Modelled from the spec: the ordered parameter mapping carried by a Via
hop ("supports add/get by key, values may be empty-string markers"); the
source file itself also nil-checks parameter values (`rport != nil`), so a
value is a `MaybeString`. -/
abbrev Params := List (String × MaybeString)

/-- Modelled from the spec: parameter lookup by key (first binding wins). -/
def paramsGet (k : String) : Params → Option MaybeString
  | [] => none
  | (k', v) :: t => if k' = k then some v else paramsGet k t

/-- Modelled from the spec: add-or-replace a parameter by key, keeping the
position of an existing key and appending a new key at the end. -/
def paramsAdd (k : String) (v : MaybeString) : Params → Params
  | [] => [(k, v)]
  | (k', v') :: t => if k' = k then (k, v) :: t else (k', v') :: paramsAdd k v t

/-- One Via hop: host, optional port and the ordered parameter mapping.
Hops are deep-cloned wherever the code clones them, so they are modelled as
plain values (no separate allocation identity is needed). -/
structure ViaHop where
  host : String
  port : Option Port
  params : Params
  deriving DecidableEq, Repr

/-- The URI abstraction: the concrete SIP-URI variant (`*SipUri`, exposing
`FHost`/`FPort`) and any other URI variant.  `uid` is the allocation
identity of the underlying Go object. -/
inductive Uri where
  | sip (uid : Nat) (fhost : String) (fport : Option Port)
  | other (uid : Nat) (descr : String)
  deriving DecidableEq, Repr

/-- Allocation identity of a URI. -/
def Uri.uid : Uri → Nat
  | .sip i _ _ => i
  | .other i _ => i

/-- Go `Uri.Clone()`: a deep copy with a fresh allocation identity. -/
def Uri.Clone : Uri → Nat → Uri × Nat
  | .sip _ h p, σ => (.sip σ h p, σ + 1)
  | .other _ d, σ => (.other σ d, σ + 1)

/-- Modelled from the spec: the closed header variant family
{Via, Route, Record-Route, CSeq, Contact, generic} with per-variant fields.
From/To/Call-ID and all other headers only need their name and a deep
clone, so they are covered by `generic`.  `hid` is the allocation identity
of the header object. -/
inductive Header where
  | via (hid : Nat) (hops : List ViaHop)
  | route (hid : Nat) (addresses : List Uri)
  | recordRoute (hid : Nat) (addresses : List Uri)
  | cseq (hid : Nat) (seqNo : Nat) (methodName : RequestMethod)
  | contact (hid : Nat) (address : Uri)
  | generic (hid : Nat) (hname : String) (value : String)
  deriving DecidableEq, Repr

/-- Go `Header.Name()`: the collection key of a header. -/
def Header.name : Header → String
  | .via _ _ => "Via"
  | .route _ _ => "Route"
  | .recordRoute _ _ => "Record-Route"
  | .cseq _ _ _ => "CSeq"
  | .contact _ _ => "Contact"
  | .generic _ n _ => n

/-- Clone a list of URIs in order, threading the allocation counter. -/
def cloneUris : List Uri → Nat → List Uri × Nat
  | [], σ => ([], σ)
  | u :: t, σ =>
    let (u', σ1) := u.Clone σ
    let (t', σ2) := cloneUris t σ1
    (u' :: t', σ2)

/-- Go `Header.Clone()`: a deep copy — fresh identity for the header object
and for every URI it contains (Via hops and parameter lists are values). -/
def Header.CloneH : Header → Nat → Header × Nat
  | .via _ hops, σ => (.via σ hops, σ + 1)
  | .route _ as, σ =>
    let (as', σ1) := cloneUris as (σ + 1)
    (.route σ as', σ1)
  | .recordRoute _ as, σ =>
    let (as', σ1) := cloneUris as (σ + 1)
    (.recordRoute σ as', σ1)
  | .cseq _ n m, σ => (.cseq σ n m, σ + 1)
  | .contact _ a, σ =>
    let (a', σ1) := a.Clone (σ + 1)
    (.contact σ a', σ1)
  | .generic _ n v, σ => (.generic σ n v, σ + 1)

/-- Go `headers.CloneHeaders()` (spec §4.1): an ordered sequence of
independent deep copies. -/
def CloneHeaders : List Header → Nat → List Header × Nat
  | [], σ => ([], σ)
  | h :: t, σ =>
    let (h', σ1) := h.CloneH σ
    let (t', σ2) := CloneHeaders t σ1
    (h' :: t', σ2)

/-- Modelled from the spec (§4.1): `GetHeaders(name)` — all headers with
that name, in insertion order (header names in this model are canonical,
so the lookup is by exact name). -/
def GetHeaders (n : String) (hdrs : List Header) : List Header :=
  hdrs.filter (fun h => h.name = n)

/-- Modelled from the spec: the metadata mapping collaborator
(`log.Fields`), an immutable mapping from string keys to values. -/
abbrev Fields := List (String × String)

/-- Modelled from the spec: `Fields.WithFields` — merge producing a new
mapping, new keys overriding same-named old keys. -/
def fieldsWith (old new : Fields) : Fields :=
  old.filter (fun kv => ¬ new.any (fun kv' => kv'.1 = kv.1)) ++ new

/-- The `request` struct: the embedded `message` base (message id, SIP
version, header collection, body, metadata, cached `src`/`dest` transport
overrides, transport) plus `method` and `recipient`. -/
structure request where
  messID : Nat
  sipVersion : String
  headers : List Header
  body : String
  fields : Fields
  src : String
  dest : String
  transport : String
  method : RequestMethod
  recipient : Uri
  deriving DecidableEq, Repr

/-- The parts of a `Response` the request module reads: message id, SIP
version and headers (Contact, To, Record-Route). -/
structure response where
  messID : Nat
  sipVersion : String
  headers : List Header
  deriving DecidableEq, Repr

/-- Go `msg.ViaHop()` (collaborator on the message base, modelled from the
spec: "locate the request's top-most Via header"): the first hop of the
first Via-named header, if that header is a Via header with at least one
hop. -/
def viaHopOfHeaders (hdrs : List Header) : Option ViaHop :=
  match (GetHeaders "Via" hdrs).head? with
  | some (.via _ (h :: _)) => some h
  | _ => none

/-- Go `msg.CSeq()` (collaborator on the message base, modelled from the spec:
lookup-first-by-name): the first CSeq-named header, if it is a CSeq
header; yields its (sequence number, method). -/
def cseqOfHeaders (hdrs : List Header) : Option (Nat × RequestMethod) :=
  match (GetHeaders "CSeq" hdrs).head? with
  | some (.cseq _ n m) => some (n, m)
  | _ => none

/-- Go `msg.Contact()` (collaborator on the message base, modelled from the
spec): the address of the first Contact-named header, if it is a Contact
header. -/
def contactAddrOf (resp : response) : Option Uri :=
  match (GetHeaders "Contact" resp.headers).head? with
  | some (.contact _ a) => some a
  | _ => none

/-- Go `strconv.Atoi` value component (the error is discarded by the
caller): optional sign followed by digits; syntax errors yield 0, range
errors yield the clamped int64 bound. -/
def goAtoi (s : String) : Int :=
  let core : Bool → List Char → Int := fun neg digits =>
    if digits = [] then 0
    else if digits.all Char.isDigit then
      let n : Nat := digits.foldl (fun a c => a * 10 + (c.toNat - 48)) 0
      let v : Int := if neg then -(n : Int) else (n : Int)
      if v > 2 ^ 63 - 1 then 2 ^ 63 - 1
      else if v < -(2 ^ 63) then -(2 ^ 63)
      else v
    else 0
  match s.data with
  | '-' :: rest => core true rest
  | '+' :: rest => core false rest
  | l => core false l

/-- Go conversion `uint16(p)`: the low 16 bits, two's complement. -/
def uint16Of (i : Int) : Nat := (i % 65536).toNat

/-- Modelled from the spec: the collaborator lookup of the transport's
well-known default port (spec fixes UDP to 5060). -/
def DefaultPort (transport : String) : Port :=
  match transport with
  | "TLS" => 5061
  | "WSS" => 443
  | "WS" => 80
  | _ => 5060

/-- Modelled from the spec: the globally-unique Via branch token generator
(`GenerateBranch`, RFC 3261 magic cookie prefix); modelled as a counter
draw. -/
def branchTok (k : Nat) : String := "z9hG4bK." ++ Nat.repr k

/-- Go `GenerateBranch()` with the allocation counter threaded through. -/
def GenerateBranch (σ : Nat) : String × Nat := (branchTok σ, σ + 1)

/-- Go `strings.TrimSpace` (collaborator): strip leading and trailing
whitespace. -/
def trimSpace (s : String) : String :=
  ⟨((s.data.dropWhile Char.isWhitespace).reverse.dropWhile Char.isWhitespace).reverse⟩

/-- Go `NewRequest`: build a request; an absent (`none` = Go `""`) message id
is drawn fresh; the metadata is merged with `{"request_id": messID}`; a
blank body is not set.  Headers and recipient are stored as given (no
cloning here — the callers clone). -/
def NewRequest (messID : Option MessageID) (method : RequestMethod)
    (recipient : Uri) (sipVersion : String) (hdrs : List Header)
    (body : String) (fields : Fields) (σ : Nat) : request × Nat :=
  let (mid, σ') :=
    match messID with
    | none => (σ, σ + 1)
    | some m => (m, σ)
  ({ messID := mid
     sipVersion := sipVersion
     headers := hdrs
     body := if trimSpace body = "" then "" else body
     fields := fieldsWith fields [("request_id", Nat.repr mid)]
     src := ""
     dest := ""
     transport := ""
     method := method
     recipient := recipient }, σ')

/-- Go `request.Clone()`: fresh message id, cloned recipient, cloned headers,
same version/body/fields. -/
def request.Clone (req : request) (σ : Nat) : request × Nat :=
  let (rec', σ1) := req.recipient.Clone σ
  let (hs, σ2) := CloneHeaders req.headers σ1
  NewRequest none req.method rec' req.sipVersion hs req.body req.fields σ2

/-- Go `request.WithFields(fields)`: same message id (passed through), cloned
recipient and headers, metadata merged. -/
def request.WithFields (req : request) (fields : Fields) (σ : Nat) :
    request × Nat :=
  let (rec', σ1) := req.recipient.Clone σ
  let (hs, σ2) := CloneHeaders req.headers σ1
  NewRequest (some req.messID) req.method rec' req.sipVersion hs req.body
    (fieldsWith req.fields fields) σ2

/-- Go `CopyRequest(req)`: clone every header and the recipient, preserving
the original message id and metadata. -/
def CopyRequest (req : request) (σ : Nat) : request × Nat :=
  let (hs, σ1) := CloneHeaders req.headers σ
  let (rec', σ2) := req.recipient.Clone σ1
  NewRequest (some req.messID) req.method rec' req.sipVersion hs req.body
    req.fields σ2

/-- The in-place parameter update on a Via header object: add-or-replace
`branch` on its first hop. -/
def viaWithBranch (branch : String) : Header → Header
  | .via i (hop :: hops) =>
    .via i ({ hop with params := paramsAdd "branch" (some branch) hop.params } :: hops)
  | x => x

/-- Go `viaHop.Params.Add("branch", ...)` applied through the pointer
returned by `ViaHop()`: update the first hop of the first Via-named
header.  (Only reached when `ViaHop()` succeeded.) -/
def setTopViaBranch (branch : String) : List Header → List Header
  | [] => []
  | h :: t =>
    if h.name = "Via" then viaWithBranch branch h :: t
    else h :: setTopViaBranch branch t

/-- The in-place method update on a CSeq header object. -/
def cseqWithMethod (m : RequestMethod) : Header → Header
  | .cseq i n _ => .cseq i n m
  | x => x

/-- Go `cseq.MethodName = m` applied through the pointer returned by
`CSeq()`: overwrite the method of the first CSeq-named header.  (Only
reached when `CSeq()` succeeded.) -/
def setCSeqMethod (m : RequestMethod) : List Header → List Header
  | [] => []
  | h :: t =>
    if h.name = "CSeq" then cseqWithMethod m h :: t
    else h :: setCSeqMethod m t

/-- The Record-Route loop of `NewAckRequest`: for each Record-Route header
of the response, in header order, build one fresh Route header whose
addresses are that header's addresses cloned in reverse order.  The Go
code type-asserts `h.(*RecordRouteHeader)`, so a Record-Route-named header
of another variant panics. -/
def buildAckRoutes : List Header → Nat → Except Unit (List Header × Nat)
  | [], σ => .ok ([], σ)
  | .recordRoute _ as :: t, σ =>
    let (as', σ1) := cloneUris as.reverse σ
    match buildAckRoutes t (σ1 + 1) with
    | .ok (rest, σ2) => .ok (.route σ1 as' :: rest, σ2)
    | .error e => .error e
  | _ :: _, _ => .error ()

/-- Step 1 of `NewAckRequest`: the recipient — the response's Contact
address if present (aliased, not cloned), else the original request's
recipient (aliased). -/
def ackRecipient (inviteRequest : request) (inviteResponse : response) : Uri :=
  match contactAddrOf inviteResponse with
  | some a => a
  | none => inviteRequest.recipient

/-- The metadata handed to the ACK's base construction. -/
def ackFields (inviteRequest : request) (inviteResponse : response)
    (fields : Fields) : Fields :=
  fieldsWith (fieldsWith inviteRequest.fields fields)
    [("invite_request_id", Nat.repr inviteRequest.messID),
     ("invite_response_id", Nat.repr inviteResponse.messID)]

/-- Step 2 of `NewAckRequest`: the base `NewRequest` call (method ACK, the
response's SIP version, no headers, no body). -/
def ackBase (ackID : Option MessageID) (inviteRequest : request)
    (inviteResponse : response) (fields : Fields) (σ : Nat) : request × Nat :=
  NewRequest ackID ACK (ackRecipient inviteRequest inviteResponse)
    inviteResponse.sipVersion [] "" (ackFields inviteRequest inviteResponse fields) σ

/-- Step 3 of `NewAckRequest`: `CopyHeaders("Via", inviteRequest, ackRequest)`. -/
def ackVias (inviteRequest : request) (σ1 : Nat) : List Header × Nat :=
  CloneHeaders (GetHeaders "Via" inviteRequest.headers) σ1

/-- Step 4 of `NewAckRequest`: the Route set — the original request's Route
headers cloned if any are present, else Route headers built from the
response's Record-Route headers. -/
def ackRoutes (inviteRequest : request) (inviteResponse : response) (σ3 : Nat) :
    Except Unit (List Header × Nat) :=
  if (GetHeaders "Route" inviteRequest.headers).length > 0 then
    .ok (CloneHeaders (GetHeaders "Route" inviteRequest.headers) σ3)
  else
    buildAckRoutes (GetHeaders "Record-Route" inviteResponse.headers) σ3

/-- Step 5 of `NewAckRequest`: `CopyHeaders` of From (request), To
(response), Call-ID (request) and CSeq (request), in that order. -/
def ackTail (inviteRequest : request) (inviteResponse : response) (σ4 : Nat) :
    List Header × Nat :=
  let (froms, σ5) := CloneHeaders (GetHeaders "From" inviteRequest.headers) σ4
  let (tos, σ6) := CloneHeaders (GetHeaders "To" inviteResponse.headers) σ5
  let (cids, σ7) := CloneHeaders (GetHeaders "Call-ID" inviteRequest.headers) σ6
  let (cseqs, σ8) := CloneHeaders (GetHeaders "CSeq" inviteRequest.headers) σ7
  (froms ++ (tos ++ (cids ++ cseqs)), σ8)

/-- Go `NewAckRequest(ackID, inviteRequest, inviteResponse, fields)`
(RFC 3261 §13.2.2.4), assembled from the steps above exactly in the order
of the Go statements.  A missing top Via hop (`viaHop.Params.Add` on a nil
hop) or a missing CSeq (`cseq.MethodName` on nil) panics, as does a
Record-Route-named header of the wrong variant (type assertion). -/
def NewAckRequest (ackID : Option MessageID) (inviteRequest : request)
    (inviteResponse : response) (fields : Fields) (σ : Nat) :
    Except Unit (request × Nat) :=
  let (ack0, σ1) := ackBase ackID inviteRequest inviteResponse fields σ
  let (vias, σ2) := ackVias inviteRequest σ1
  let hdrs1 := ack0.headers ++ vias
  match viaHopOfHeaders hdrs1 with
  | none => .error ()
  | some _ =>
    let (branch, σ3) := GenerateBranch σ2
    match ackRoutes inviteRequest inviteResponse σ3 with
    | .error e => .error e
    | .ok (routes, σ4) =>
      let (tail, σ8) := ackTail inviteRequest inviteResponse σ4
      let hdrs3 := setTopViaBranch branch hdrs1 ++ routes ++ tail
      match cseqOfHeaders hdrs3 with
      | none => .error ()
      | some _ => .ok ({ ack0 with headers := setCSeqMethod ACK hdrs3 }, σ8)

/-- The metadata handed to the CANCEL's base construction. -/
def cancelFields (requestForCancel : request) (fields : Fields) : Fields :=
  fieldsWith (fieldsWith requestForCancel.fields fields)
    [("cancelling_request_id", Nat.repr requestForCancel.messID)]

/-- Step 1 of `NewCancelRequest`: the base `NewRequest` call (method
CANCEL, the original's recipient aliased, the original's SIP version, no
headers, no body). -/
def cancelBase (cancelID : Option MessageID) (requestForCancel : request)
    (fields : Fields) (σ : Nat) : request × Nat :=
  NewRequest cancelID CANCEL requestForCancel.recipient
    requestForCancel.sipVersion [] "" (cancelFields requestForCancel fields) σ

/-- Step 3 of `NewCancelRequest`: `CopyHeaders` of Route, From, To,
Call-ID and CSeq from the original, in that order. -/
def cancelTail (requestForCancel : request) (σ2 : Nat) : List Header × Nat :=
  let (routes, σ3) := CloneHeaders (GetHeaders "Route" requestForCancel.headers) σ2
  let (froms, σ4) := CloneHeaders (GetHeaders "From" requestForCancel.headers) σ3
  let (tos, σ5) := CloneHeaders (GetHeaders "To" requestForCancel.headers) σ4
  let (cids, σ6) := CloneHeaders (GetHeaders "Call-ID" requestForCancel.headers) σ5
  let (cseqs, σ7) := CloneHeaders (GetHeaders "CSeq" requestForCancel.headers) σ6
  (routes ++ (froms ++ (tos ++ (cids ++ cseqs))), σ7)

/-- Go `NewCancelRequest(cancelID, requestForCancel, fields)` (RFC 3261
§9.1).  Appends a fresh Via header holding a clone of the original's top
hop (branch preserved), then the copied Route/From/To/Call-ID/CSeq with
the CSeq method overwritten to CANCEL.  A missing top Via hop (the hop
clone/append dereferences it) or a missing CSeq panics. -/
def NewCancelRequest (cancelID : Option MessageID) (requestForCancel : request)
    (fields : Fields) (σ : Nat) : Except Unit (request × Nat) :=
  let (c0, σ1) := cancelBase cancelID requestForCancel fields σ
  match viaHopOfHeaders requestForCancel.headers with
  | none => .error ()
  | some hop =>
    let hdrs1 := c0.headers ++ [Header.via σ1 [hop]]
    let (tail, σ7) := cancelTail requestForCancel (σ1 + 1)
    let hdrs2 := hdrs1 ++ tail
    match cseqOfHeaders hdrs2 with
    | none => .error ()
    | some _ => .ok ({ c0 with headers := setCSeqMethod CANCEL hdrs2 }, σ7)

/-- Go `request.Source()`: cached `src` override, else resolve from the top
Via hop — `received` parameter (a present nil value panics: the code calls
`received.String()` without a nil check), then the `rport` parameter
(nil-checked; best-effort `Atoi` then `uint16`), then the hop's port, then
the transport default. -/
def request.Source (req : request) : Except Unit String :=
  if req.src ≠ "" then .ok req.src
  else
    match viaHopOfHeaders req.headers with
    | none => .ok ""
    | some hop =>
      match paramsGet "received" hop.params with
      | some none => .error ()
      | got =>
        let host :=
          match got with
          | some (some s) => if s ≠ "" then s else hop.host
          | _ => hop.host
        let fallback :=
          match hop.port with
          | some p => p
          | none => DefaultPort req.transport
        let port :=
          match paramsGet "rport" hop.params with
          | some (some s) => if s ≠ "" then uint16Of (goAtoi s) else fallback
          | _ => fallback
        .ok (host ++ ":" ++ Nat.repr port)

/-- Go `request.Destination()`: cached `dest` override, else the first
address of the first Route-named header (type-asserted to be a Route
header holding a `*SipUri` — either assertion failing panics); with no
Route headers, or a Route header with no addresses, the recipient if it is
a SIP URI, else `""`.  Port: the governing URI's port, else the transport
default. -/
def request.Destination (req : request) : Except Unit String :=
  if req.dest ≠ "" then .ok req.dest
  else
    let finish : String → Option Port → Except Unit String := fun host fport =>
      let port :=
        match fport with
        | some p => p
        | none => DefaultPort req.transport
      .ok (host ++ ":" ++ Nat.repr port)
    let fromRecipient : Except Unit String :=
      match req.recipient with
      | .sip _ fh fp => finish fh fp
      | .other _ _ => .ok ""
    match GetHeaders "Route" req.headers with
    | [] => fromRecipient
    | h :: _ =>
      match h with
      | .route _ (a :: _) =>
        (match a with
         | .sip _ fh fp => finish fh fp
         | .other _ _ => .error ())
      | .route _ [] => fromRecipient
      | _ => .error ()

/-- Allocation identities of the URIs contained in a header, together with
the header's own identity. -/
def Header.ids : Header → List Nat
  | .via i _ => [i]
  | .route i as => i :: as.map Uri.uid
  | .recordRoute i as => i :: as.map Uri.uid
  | .cseq i _ _ => [i]
  | .contact i a => [i, a.uid]
  | .generic i _ _ => [i]

/-- Allocation identities of a header list. -/
def headersIds (hdrs : List Header) : List Nat :=
  (hdrs.map Header.ids).flatten

/-- All allocation identities reachable from a request: the recipient URI
and every header (with its URIs). -/
def request.allIds (req : request) : List Nat :=
  req.recipient.uid :: headersIds req.headers

/-- Well-formedness of a request against the allocation counter: every
reachable identity, and the message id, was allocated in the past. -/
def request.IdsLt (req : request) (σ : Nat) : Prop :=
  (∀ i ∈ req.allIds, i < σ) ∧ req.messID < σ

instance (req : request) (σ : Nat) : Decidable (req.IdsLt σ) := by
  unfold request.IdsLt; infer_instance

/-- A heap write through a URI pointer with identity `i`: visibly change
the object (append a marker to its host/payload) if this view holds that
identity. -/
def Uri.touch (i : Nat) : Uri → Uri
  | .sip j h p => if j = i then .sip j (h ++ "~") p else .sip j h p
  | .other j d => if j = i then .other j (d ++ "~") else .other j d

/-- Propagate a URI heap write into the URIs a header holds. -/
def Header.touchUri (i : Nat) : Header → Header
  | .route j as => .route j (as.map (Uri.touch i))
  | .recordRoute j as => .recordRoute j (as.map (Uri.touch i))
  | .contact j a => .contact j (a.touch i)
  | h => h

/-- A heap write through a header pointer with identity `i`: visibly
change the header object (append a hop/address, bump the sequence number,
replace the contact address, extend the value) if this view holds that
identity. -/
def Header.touchHdr (i : Nat) : Header → Header
  | .via j hops => if j = i then .via j (hops ++ [⟨"~", none, []⟩]) else .via j hops
  | .route j as => if j = i then .route j (as ++ [.other 0 "~"]) else .route j as
  | .recordRoute j as =>
    if j = i then .recordRoute j (as ++ [.other 0 "~"]) else .recordRoute j as
  | .cseq j n m => if j = i then .cseq j (n + 1) m else .cseq j n m
  | .contact j a => if j = i then .contact j (Uri.other 0 "~") else .contact j a
  | .generic j n v => if j = i then .generic j n (v ++ "~") else .generic j n v

/-- The view a request has of the heap after a URI write at identity
`i`. -/
def request.touchU (i : Nat) (req : request) : request :=
  { req with recipient := req.recipient.touch i
             headers := req.headers.map (Header.touchUri i) }

/-- The view a request has of the heap after a header write at identity
`i`. -/
def request.touchH (i : Nat) (req : request) : request :=
  { req with headers := req.headers.map (Header.touchHdr i) }

/-- Whether a derivation constructor returned a request (did not panic). -/
def isOkE : Except Unit (request × Nat) → Bool
  | .ok _ => true
  | .error _ => false

instance {ε α : Type} [DecidableEq ε] [DecidableEq α] : DecidableEq (Except ε α) := fun a b =>
  match a, b with
  | .error e, .error e' =>
    if h : e = e' then .isTrue (by rw [h]) else .isFalse (by intro he; cases he; exact h rfl)
  | .error _, .ok _ => .isFalse (by intro h; cases h)
  | .ok _, .error _ => .isFalse (by intro h; cases h)
  | .ok x, .ok y =>
    if h : x = y then .isTrue (by rw [h]) else .isFalse (by intro he; cases he; exact h rfl)

/-- Forget the allocation identity of a URI (for value comparisons). -/
def Uri.stripId : Uri → Uri
  | .sip _ h p => .sip 0 h p
  | .other _ d => .other 0 d

/-- The address list of a Route/Record-Route header. -/
def Header.addrsOf : Header → List Uri
  | .route _ as => as
  | .recordRoute _ as => as
  | _ => []

/-! ## Supporting lemmas -/

theorem getHeaders_cons_of_name {h : Header} {n : String} (t : List Header)
    (hn : h.name = n) :
    GetHeaders n (h :: t) = h :: GetHeaders n t := by
  simp [GetHeaders, List.filter_cons, hn]

theorem getHeaders_cons_of_ne {h : Header} {n : String} (t : List Header)
    (hn : h.name ≠ n) :
    GetHeaders n (h :: t) = GetHeaders n t := by
  simp [GetHeaders, List.filter_cons, hn]

theorem getHeaders_append (n : String) (a b : List Header) :
    GetHeaders n (a ++ b) = GetHeaders n a ++ GetHeaders n b := by
  simp [GetHeaders, List.filter_append]

theorem getHeaders_eq_nil {n : String} {l : List Header}
    (hn : ∀ h ∈ l, h.name ≠ n) : GetHeaders n l = [] := by
  simp only [GetHeaders, List.filter_eq_nil_iff]
  intro h hm
  simpa using hn h hm

theorem mem_getHeaders_name {n : String} {l : List Header} {h : Header}
    (hm : h ∈ GetHeaders n l) : h.name = n := by
  simp only [GetHeaders, List.mem_filter] at hm
  simpa using hm.2

theorem cloneH_name (h : Header) (σ : Nat) : ((h.CloneH σ).1).name = h.name := by
  cases h <;> simp [Header.CloneH, Header.name]

theorem cloneHeaders_map_name (l : List Header) (σ : Nat) :
    ((CloneHeaders l σ).1).map Header.name = l.map Header.name := by
  induction l generalizing σ with
  | nil => simp [CloneHeaders]
  | cons h t ih => simp [CloneHeaders, cloneH_name, ih]

theorem mem_cloneHeaders_name {l : List Header} {σ : Nat} {h' : Header}
    (hm : h' ∈ (CloneHeaders l σ).1) : ∃ h ∈ l, h'.name = h.name := by
  have : h'.name ∈ ((CloneHeaders l σ).1).map Header.name := List.mem_map_of_mem _ hm
  rw [cloneHeaders_map_name] at this
  obtain ⟨h, hh, he⟩ := List.mem_map.mp this
  exact ⟨h, hh, he.symm⟩

theorem getHeaders_cloneHeaders_getHeaders_eq_nil {n m : String}
    (l : List Header) (σ : Nat) (hnm : m ≠ n) :
    GetHeaders n (CloneHeaders (GetHeaders m l) σ).1 = [] := by
  refine getHeaders_eq_nil ?_
  intro h hm
  obtain ⟨h0, h0m, he⟩ := mem_cloneHeaders_name hm
  rw [he, mem_getHeaders_name h0m]
  exact hnm

theorem viaHop_elim {l : List Header} {hop : ViaHop}
    (h : viaHopOfHeaders l = some hop) :
    ∃ i hops rest, GetHeaders "Via" l = Header.via i (hop :: hops) :: rest := by
  unfold viaHopOfHeaders at h
  cases e : GetHeaders "Via" l with
  | nil => rw [e] at h; simp at h
  | cons a t =>
    rw [e] at h
    cases a with
    | via i hops =>
      cases hops with
      | nil => simp at h
      | cons h0 hs =>
        simp only [List.head?_cons, Option.some.injEq] at h
        exact ⟨i, hs, t, by rw [← h] ⟩
    | route i as => simp at h
    | recordRoute i as => simp at h
    | cseq i sn m => simp at h
    | contact i a => simp at h
    | generic i nm v => simp at h

theorem cseq_elim {l : List Header} {n : Nat} {m : RequestMethod}
    (h : cseqOfHeaders l = some (n, m)) :
    ∃ i rest, GetHeaders "CSeq" l = Header.cseq i n m :: rest := by
  unfold cseqOfHeaders at h
  cases e : GetHeaders "CSeq" l with
  | nil => rw [e] at h; simp at h
  | cons a t =>
    rw [e] at h
    cases a with
    | via i hops => simp at h
    | route i as => simp at h
    | recordRoute i as => simp at h
    | cseq i sn m0 =>
      simp only [List.head?_cons, Option.some.injEq, Prod.mk.injEq] at h
      exact ⟨i, t, by rw [h.1, h.2] ⟩
    | contact i a => simp at h
    | generic i nm v => simp at h

theorem cseqWithMethod_name (m : RequestMethod) (x : Header) :
    (cseqWithMethod m x).name = x.name := by
  cases x <;> simp [cseqWithMethod, Header.name]

theorem viaWithBranch_name (b : String) (x : Header) :
    (viaWithBranch b x).name = x.name := by
  cases x with
  | via i hops => cases hops <;> simp [viaWithBranch, Header.name]
  | _ => simp [viaWithBranch, Header.name]

theorem setCSeqMethod_getHeaders {n : String} (m : RequestMethod)
    (l : List Header) (hn : n ≠ "CSeq") :
    GetHeaders n (setCSeqMethod m l) = GetHeaders n l := by
  induction l with
  | nil => simp [setCSeqMethod]
  | cons h t ih =>
    by_cases hc : h.name = "CSeq"
    · have hne : h.name ≠ n := by rw [hc]; exact fun e => hn e.symm
      rw [setCSeqMethod, if_pos hc]
      rw [getHeaders_cons_of_ne t hne,
        getHeaders_cons_of_ne t (by rw [cseqWithMethod_name]; exact hne)]
    · rw [setCSeqMethod, if_neg hc]
      by_cases hm : h.name = n
      · rw [getHeaders_cons_of_name _ hm, getHeaders_cons_of_name _ hm, ih]
      · rw [getHeaders_cons_of_ne _ hm, getHeaders_cons_of_ne _ hm, ih]

theorem setTopViaBranch_getHeaders {n : String} (b : String)
    (l : List Header) (hn : n ≠ "Via") :
    GetHeaders n (setTopViaBranch b l) = GetHeaders n l := by
  induction l with
  | nil => simp [setTopViaBranch]
  | cons h t ih =>
    by_cases hc : h.name = "Via"
    · have hne : h.name ≠ n := by rw [hc]; exact fun e => hn e.symm
      rw [setTopViaBranch, if_pos hc]
      rw [getHeaders_cons_of_ne t hne,
        getHeaders_cons_of_ne t (by rw [viaWithBranch_name]; exact hne)]
    · rw [setTopViaBranch, if_neg hc]
      by_cases hm : h.name = n
      · rw [getHeaders_cons_of_name _ hm, getHeaders_cons_of_name _ hm, ih]
      · rw [getHeaders_cons_of_ne _ hm, getHeaders_cons_of_ne _ hm, ih]

theorem paramsGet_paramsAdd_self (k : String) (v : MaybeString) (ps : Params) :
    paramsGet k (paramsAdd k v ps) = some v := by
  induction ps with
  | nil => simp [paramsAdd, paramsGet]
  | cons p t ih =>
    by_cases hk : p.1 = k
    · rw [paramsAdd]
      rw [if_pos (by rw [hk])]
      simp [paramsGet]
    · rw [paramsAdd]
      rw [if_neg (by simpa using hk)]
      rw [paramsGet, if_neg hk]
      exact ih

theorem cseqOfHeaders_append_left_nil {a b : List Header}
    (ha : GetHeaders "CSeq" a = []) :
    cseqOfHeaders (a ++ b) = cseqOfHeaders b := by
  unfold cseqOfHeaders
  rw [getHeaders_append, ha, List.nil_append]

theorem viaHopOfHeaders_append {a b : List Header} {hop : ViaHop}
    (ha : viaHopOfHeaders a = some hop) :
    viaHopOfHeaders (a ++ b) = some hop := by
  obtain ⟨i, hops, rest, he⟩ := viaHop_elim ha
  unfold viaHopOfHeaders
  rw [getHeaders_append, he]
  simp

theorem getHeaders_eq_self {n : String} {l : List Header}
    (h : ∀ h ∈ l, h.name = n) : GetHeaders n l = l := by
  simp only [GetHeaders]
  rw [List.filter_eq_self]
  intro a ha
  simpa using h a ha

theorem cseqOfHeaders_cons_of_ne {h : Header} {t : List Header}
    (hn : h.name ≠ "CSeq") :
    cseqOfHeaders (h :: t) = cseqOfHeaders t := by
  unfold cseqOfHeaders
  rw [getHeaders_cons_of_ne t hn]

theorem cseqOf_setCSeqMethod (m : RequestMethod) (l : List Header) :
    cseqOfHeaders (setCSeqMethod m l) =
      (cseqOfHeaders l).map (fun p => (p.1, m)) := by
  induction l with
  | nil => simp [setCSeqMethod, cseqOfHeaders, GetHeaders]
  | cons h t ih =>
    by_cases hc : h.name = "CSeq"
    · rw [setCSeqMethod, if_pos hc]
      have hc' : (cseqWithMethod m h).name = "CSeq" := by
        rw [cseqWithMethod_name]; exact hc
      unfold cseqOfHeaders
      rw [getHeaders_cons_of_name t hc, getHeaders_cons_of_name t hc']
      cases h <;> simp [cseqWithMethod]
    · rw [setCSeqMethod, if_neg hc]
      rw [cseqOfHeaders_cons_of_ne hc, cseqOfHeaders_cons_of_ne hc, ih]

/-! ### Allocation freshness -/

/-- All values of a list lie in the interval `[a, b)`. -/
def idsIn (l : List Nat) (a b : Nat) : Prop := ∀ i ∈ l, a ≤ i ∧ i < b

theorem idsIn_nil {a b : Nat} : idsIn [] a b := by intro i hi; cases hi

theorem idsIn_append {x y : List Nat} {a b : Nat} :
    idsIn (x ++ y) a b ↔ idsIn x a b ∧ idsIn y a b := by
  unfold idsIn
  constructor
  · intro h
    exact ⟨fun i hi => h i (List.mem_append_left _ hi),
           fun i hi => h i (List.mem_append_right _ hi)⟩
  · intro h i hi
    rcases List.mem_append.mp hi with hx | hy
    · exact h.1 i hx
    · exact h.2 i hy

theorem idsIn_mono {l : List Nat} {a b a' b' : Nat} (ha : a' ≤ a) (hb : b ≤ b')
    (h : idsIn l a b) : idsIn l a' b' := by
  intro i hi
  have := h i hi
  omega

theorem headersIds_nil : headersIds [] = [] := rfl

theorem headersIds_cons (h : Header) (t : List Header) :
    headersIds (h :: t) = h.ids ++ headersIds t := by
  simp [headersIds]

theorem headersIds_append (a b : List Header) :
    headersIds (a ++ b) = headersIds a ++ headersIds b := by
  simp [headersIds]

theorem uriClone_snd (u : Uri) (σ : Nat) : (u.Clone σ).2 = σ + 1 := by
  cases u <;> rfl

theorem uriClone_uid (u : Uri) (σ : Nat) : ((u.Clone σ).1).uid = σ := by
  cases u <;> rfl

theorem uriClone_stripId (u : Uri) (σ : Nat) :
    ((u.Clone σ).1).stripId = u.stripId := by
  cases u <;> rfl

theorem cloneUris_snd (l : List Uri) (σ : Nat) :
    (cloneUris l σ).2 = σ + l.length := by
  induction l generalizing σ with
  | nil => simp [cloneUris]
  | cons u t ih =>
    simp only [cloneUris, uriClone_snd, ih, List.length_cons]
    omega

theorem cloneUris_ids (l : List Uri) (σ : Nat) :
    idsIn (((cloneUris l σ).1).map Uri.uid) σ (cloneUris l σ).2 := by
  induction l generalizing σ with
  | nil => simpa [cloneUris] using idsIn_nil
  | cons u t ih =>
    simp only [cloneUris, uriClone_snd, List.map_cons]
    intro i hi
    rcases List.mem_cons.mp hi with he | ht
    · rw [uriClone_uid] at he
      have h2 := cloneUris_snd t (σ + 1)
      omega
    · have := ih (σ + 1) i ht
      omega

theorem cloneUris_stripId (l : List Uri) (σ : Nat) :
    ((cloneUris l σ).1).map Uri.stripId = l.map Uri.stripId := by
  induction l generalizing σ with
  | nil => simp [cloneUris]
  | cons u t ih => simp [cloneUris, uriClone_stripId, ih]

theorem cloneH_snd (h : Header) (σ : Nat) : σ ≤ (h.CloneH σ).2 := by
  cases h with
  | route i as =>
    simp only [Header.CloneH, cloneUris_snd]
    omega
  | recordRoute i as =>
    simp only [Header.CloneH, cloneUris_snd]
    omega
  | contact i a =>
    simp only [Header.CloneH, uriClone_snd]
    omega
  | via i hops => simp [Header.CloneH]
  | cseq i n m => simp [Header.CloneH]
  | generic i n v => simp [Header.CloneH]

theorem cloneH_ids (h : Header) (σ : Nat) :
    idsIn ((h.CloneH σ).1.ids) σ (h.CloneH σ).2 := by
  cases h with
  | via i hops =>
    intro j hj
    simp only [Header.CloneH, Header.ids, List.mem_singleton] at hj ⊢
    omega
  | cseq i n m =>
    intro j hj
    simp only [Header.CloneH, Header.ids, List.mem_singleton] at hj ⊢
    omega
  | generic i n v =>
    intro j hj
    simp only [Header.CloneH, Header.ids, List.mem_singleton] at hj ⊢
    omega
  | contact i a =>
    intro j hj
    simp only [Header.CloneH, Header.ids, uriClone_uid, uriClone_snd,
      List.mem_cons, List.not_mem_nil, or_false] at hj ⊢
    omega
  | route i as =>
    intro j hj
    simp only [Header.CloneH, Header.ids, List.mem_cons, cloneUris_snd] at hj ⊢
    rcases hj with h1 | h2
    · omega
    · have := cloneUris_ids as (σ + 1) j h2
      rw [cloneUris_snd] at this
      omega
  | recordRoute i as =>
    intro j hj
    simp only [Header.CloneH, Header.ids, List.mem_cons, cloneUris_snd] at hj ⊢
    rcases hj with h1 | h2
    · omega
    · have := cloneUris_ids as (σ + 1) j h2
      rw [cloneUris_snd] at this
      omega

theorem cloneHeaders_snd (l : List Header) (σ : Nat) :
    σ ≤ (CloneHeaders l σ).2 := by
  induction l generalizing σ with
  | nil => simp [CloneHeaders]
  | cons h t ih =>
    simp only [CloneHeaders]
    have h1 := cloneH_snd h σ
    have h2 := ih (h.CloneH σ).2
    omega

theorem cloneHeaders_ids (l : List Header) (σ : Nat) :
    idsIn (headersIds (CloneHeaders l σ).1) σ (CloneHeaders l σ).2 := by
  induction l generalizing σ with
  | nil => simpa [CloneHeaders] using idsIn_nil
  | cons h t ih =>
    simp only [CloneHeaders, headersIds_cons]
    rw [idsIn_append]
    constructor
    · exact idsIn_mono (Nat.le_refl _) (cloneHeaders_snd t (h.CloneH σ).2) (cloneH_ids h σ)
    · exact idsIn_mono (cloneH_snd h σ) (Nat.le_refl _) (ih (h.CloneH σ).2)

theorem ids_cseqWithMethod (m : RequestMethod) (h : Header) :
    (cseqWithMethod m h).ids = h.ids := by
  cases h <;> simp [cseqWithMethod, Header.ids]

theorem ids_viaWithBranch (b : String) (h : Header) :
    (viaWithBranch b h).ids = h.ids := by
  cases h with
  | via i hops => cases hops <;> simp [viaWithBranch, Header.ids]
  | _ => simp [viaWithBranch, Header.ids]

theorem headersIds_setCSeqMethod (m : RequestMethod) (l : List Header) :
    headersIds (setCSeqMethod m l) = headersIds l := by
  induction l with
  | nil => simp [setCSeqMethod]
  | cons h t ih =>
    by_cases hc : h.name = "CSeq"
    · rw [setCSeqMethod, if_pos hc, headersIds_cons, headersIds_cons, ids_cseqWithMethod]
    · rw [setCSeqMethod, if_neg hc, headersIds_cons, headersIds_cons, ih]

theorem headersIds_setTopViaBranch (b : String) (l : List Header) :
    headersIds (setTopViaBranch b l) = headersIds l := by
  induction l with
  | nil => simp [setTopViaBranch]
  | cons h t ih =>
    by_cases hc : h.name = "Via"
    · rw [setTopViaBranch, if_pos hc, headersIds_cons, headersIds_cons, ids_viaWithBranch]
    · rw [setTopViaBranch, if_neg hc, headersIds_cons, headersIds_cons, ih]

theorem addrsOf_route (i : Nat) (as : List Uri) :
    (Header.route i as).addrsOf = as := rfl

theorem addrsOf_recordRoute (i : Nat) (as : List Uri) :
    (Header.recordRoute i as).addrsOf = as := rfl

theorem buildAckRoutes_props {l : List Header} {σ : Nat} {routes : List Header} {σ' : Nat}
    (h : buildAckRoutes l σ = .ok (routes, σ')) :
    σ ≤ σ' ∧ idsIn (headersIds routes) σ σ' ∧
    (∀ h' ∈ routes, ∃ i as, h' = Header.route i as) ∧
    routes.map (fun h' => (h'.addrsOf).map Uri.stripId)
      = l.map (fun h' => ((h'.addrsOf).reverse).map Uri.stripId) := by
  induction l generalizing σ routes σ' with
  | nil =>
    simp only [buildAckRoutes, Except.ok.injEq, Prod.mk.injEq] at h
    obtain ⟨h1, h2⟩ := h
    subst h1; subst h2
    refine ⟨Nat.le_refl _, idsIn_nil, ?_, by simp⟩
    intro h' hm
    cases hm
  | cons hd t ih =>
    cases hd with
    | recordRoute i as =>
      simp only [buildAckRoutes] at h
      cases hb : buildAckRoutes t ((cloneUris as.reverse σ).2 + 1) with
      | error e => rw [hb] at h; cases h
      | ok p =>
        rcases p with ⟨rest, σ2⟩
        rw [hb] at h
        simp only [Except.ok.injEq, Prod.mk.injEq] at h
        obtain ⟨h1, h2⟩ := h
        subst h1; subst h2
        obtain ⟨ihm, ihids, ihstruct, ihval⟩ := ih hb
        have hcm := cloneUris_snd as.reverse σ
        refine ⟨by omega, ?_, ?_, ?_⟩
        · rw [headersIds_cons]
          rw [idsIn_append]
          constructor
          · intro j hj
            simp only [Header.ids, List.mem_cons] at hj
            rcases hj with h1 | h2
            · omega
            · have := cloneUris_ids as.reverse σ j h2
              omega
          · exact idsIn_mono (by omega) (Nat.le_refl _) ihids
        · intro h' hm
          rcases List.mem_cons.mp hm with he | ht
          · exact ⟨_, _, he⟩
          · exact ihstruct h' ht
        · simp only [List.map_cons, addrsOf_route, addrsOf_recordRoute,
            cloneUris_stripId, ihval]
    | via i hops => simp [buildAckRoutes] at h
    | route i as => simp [buildAckRoutes] at h
    | cseq i n m => simp [buildAckRoutes] at h
    | contact i a => simp [buildAckRoutes] at h
    | generic i n v => simp [buildAckRoutes] at h

/-! ### Heap-write (touch) lemmas -/

theorem map_eq_self_of {α : Type} {l : List α} {f : α → α}
    (h : ∀ a ∈ l, f a = a) : l.map f = l := by
  induction l with
  | nil => rfl
  | cons a t ih =>
    rw [List.map_cons, h a (List.mem_cons_self a t), ih (fun b hb => h b (List.mem_cons_of_mem a hb))]

theorem uriTouch_of_ne {i : Nat} {u : Uri} (h : u.uid ≠ i) : u.touch i = u := by
  cases u with
  | sip j fh fp =>
    simp only [Uri.uid] at h
    simp [Uri.touch, h]
  | other j d =>
    simp only [Uri.uid] at h
    simp [Uri.touch, h]

theorem headerTouchUri_of_notMem {i : Nat} {h : Header} (hm : i ∉ h.ids) :
    h.touchUri i = h := by
  cases h with
  | route j as =>
    simp only [Header.ids, List.mem_cons] at hm
    push_neg at hm
    simp only [Header.touchUri]
    congr 1
    refine map_eq_self_of ?_
    intro a ha
    refine uriTouch_of_ne ?_
    intro he
    exact hm.2 (he ▸ List.mem_map_of_mem Uri.uid ha)
  | recordRoute j as =>
    simp only [Header.ids, List.mem_cons] at hm
    push_neg at hm
    simp only [Header.touchUri]
    congr 1
    refine map_eq_self_of ?_
    intro a ha
    refine uriTouch_of_ne ?_
    intro he
    exact hm.2 (he ▸ List.mem_map_of_mem Uri.uid ha)
  | contact j a =>
    simp only [Header.ids, List.mem_cons, List.not_mem_nil, or_false] at hm
    push_neg at hm
    simp only [Header.touchUri]
    rw [uriTouch_of_ne (fun he => hm.2 he.symm)]
  | via j hops => rfl
  | cseq j n m => rfl
  | generic j n v => rfl

theorem headerTouchHdr_of_notMem {i : Nat} {h : Header} (hm : i ∉ h.ids) :
    h.touchHdr i = h := by
  cases h with
  | via j hops =>
    simp only [Header.ids, List.mem_singleton] at hm
    have hj : ¬ j = i := fun he => hm he.symm
    simp [Header.touchHdr, hj]
  | route j as =>
    simp only [Header.ids, List.mem_cons] at hm
    push_neg at hm
    have hj : ¬ j = i := fun he => hm.1 he.symm
    simp [Header.touchHdr, hj]
  | recordRoute j as =>
    simp only [Header.ids, List.mem_cons] at hm
    push_neg at hm
    have hj : ¬ j = i := fun he => hm.1 he.symm
    simp [Header.touchHdr, hj]
  | cseq j n m =>
    simp only [Header.ids, List.mem_singleton] at hm
    have hj : ¬ j = i := fun he => hm he.symm
    simp [Header.touchHdr, hj]
  | contact j a =>
    simp only [Header.ids, List.mem_cons, List.not_mem_nil, or_false] at hm
    push_neg at hm
    have hj : ¬ j = i := fun he => hm.1 he.symm
    simp [Header.touchHdr, hj]
  | generic j n v =>
    simp only [Header.ids, List.mem_singleton] at hm
    have hj : ¬ j = i := fun he => hm he.symm
    simp [Header.touchHdr, hj]

theorem touchU_of_notMem {i : Nat} {r : request} (hm : i ∉ r.allIds) :
    r.touchU i = r := by
  simp only [request.allIds, List.mem_cons] at hm
  push_neg at hm
  obtain ⟨h1, h2⟩ := hm
  unfold request.touchU
  have hrec : r.recipient.touch i = r.recipient :=
    uriTouch_of_ne (fun he => h1 he.symm)
  have hhdrs : r.headers.map (Header.touchUri i) = r.headers := by
    refine map_eq_self_of ?_
    intro h ha
    refine headerTouchUri_of_notMem ?_
    intro hin
    refine h2 ?_
    simp only [headersIds]
    exact List.mem_flatten.mpr ⟨h.ids, List.mem_map_of_mem _ ha, hin⟩
  rw [hrec, hhdrs]

theorem touchH_of_notMem {i : Nat} {r : request} (hm : i ∉ r.allIds) :
    r.touchH i = r := by
  simp only [request.allIds, List.mem_cons] at hm
  push_neg at hm
  obtain ⟨h1, h2⟩ := hm
  unfold request.touchH
  have hhdrs : r.headers.map (Header.touchHdr i) = r.headers := by
    refine map_eq_self_of ?_
    intro h ha
    refine headerTouchHdr_of_notMem ?_
    intro hin
    refine h2 ?_
    simp only [headersIds]
    exact List.mem_flatten.mpr ⟨h.ids, List.mem_map_of_mem _ ha, hin⟩
  rw [hhdrs]

/-! ### Constructor projection lemmas -/

theorem newRequest_headers (mid : Option MessageID) (me : RequestMethod)
    (rec : Uri) (v : String) (hs : List Header) (b : String) (f : Fields)
    (σ : Nat) : (NewRequest mid me rec v hs b f σ).1.headers = hs := by
  cases mid <;> rfl

theorem newRequest_recipient (mid : Option MessageID) (me : RequestMethod)
    (rec : Uri) (v : String) (hs : List Header) (b : String) (f : Fields)
    (σ : Nat) : (NewRequest mid me rec v hs b f σ).1.recipient = rec := by
  cases mid <;> rfl

theorem newRequest_messID_some (m : MessageID) (me : RequestMethod)
    (rec : Uri) (v : String) (hs : List Header) (b : String) (f : Fields)
    (σ : Nat) : (NewRequest (some m) me rec v hs b f σ).1.messID = m := rfl

theorem newRequest_messID_none (me : RequestMethod)
    (rec : Uri) (v : String) (hs : List Header) (b : String) (f : Fields)
    (σ : Nat) : (NewRequest none me rec v hs b f σ).1.messID = σ := rfl

theorem newRequest_snd_ge (mid : Option MessageID) (me : RequestMethod)
    (rec : Uri) (v : String) (hs : List Header) (b : String) (f : Fields)
    (σ : Nat) : σ ≤ (NewRequest mid me rec v hs b f σ).2 := by
  cases mid <;> simp [NewRequest]

theorem viaHopOfHeaders_cons_via (i : Nat) (h : ViaHop) (hs : List ViaHop)
    (t : List Header) :
    viaHopOfHeaders (Header.via i (h :: hs) :: t) = some h := by
  unfold viaHopOfHeaders
  rw [getHeaders_cons_of_name t (show (Header.via i (h :: hs)).name = "Via" from rfl)]
  rfl

theorem setTopViaBranch_cons_via (b : String) (i : Nat) (h : ViaHop)
    (hs : List ViaHop) (t : List Header) :
    setTopViaBranch b (Header.via i (h :: hs) :: t)
      = Header.via i ({ h with params := paramsAdd "branch" (some b) h.params } :: hs) :: t := by
  rw [setTopViaBranch,
    if_pos (show (Header.via i (h :: hs)).name = "Via" from rfl)]
  rfl

theorem setCSeqMethod_cons_of_ne (m : RequestMethod) {h : Header}
    (t : List Header) (hn : h.name ≠ "CSeq") :
    setCSeqMethod m (h :: t) = h :: setCSeqMethod m t := by
  rw [setCSeqMethod, if_neg hn]

/-- The branch parameter of a request's top Via hop. -/
def topViaBranch (r : request) : Option MaybeString :=
  match viaHopOfHeaders r.headers with
  | some h => paramsGet "branch" h.params
  | none => none

/-! ### Concrete fixtures for witnesses and counterexamples -/

/-- A concrete Via hop with branch `z9hG4bK-1`. -/
def wHop : ViaHop := ⟨"client.test", some 5060, [("branch", some "z9hG4bK-1")]⟩

/-- A concrete INVITE request. -/
def wReq : request :=
  { messID := 1, sipVersion := "SIP/2.0"
    headers := [.via 2 [wHop], .generic 3 "From" "alice", .generic 4 "To" "bob",
                .generic 5 "Call-ID" "cid1", .cseq 6 42 INVITE]
    body := "", fields := [], src := "", dest := "", transport := "UDP"
    method := INVITE, recipient := .sip 7 "bob.test" none }

/-- A concrete 2xx response with a Contact and one two-address
Record-Route header. -/
def wResp : response :=
  { messID := 8, sipVersion := "SIP/2.0"
    headers := [.generic 9 "To" "bob;tag=x",
                .contact 10 (.sip 11 "contact.test" (some 5062)),
                .recordRoute 12 [.sip 13 "r1.test" none, .sip 14 "r2.test" none]] }

/-- No counter value ever makes the generated branch collide with the
fixture branch `z9hG4bK-1` (the generated token has a dot at index 7). -/
theorem wBranch_ne_branchTok (k : Nat) : "z9hG4bK-1" ≠ branchTok k := by
  intro h
  have h7 : ("z9hG4bK-1" : String).data[7]? = (branchTok k).data[7]? := by rw [h]
  rw [show branchTok k = "z9hG4bK." ++ Nat.repr k from rfl, String.data_append,
    List.getElem?_append_left (by decide)] at h7
  exact absurd h7 (by decide)

/-! ## C8 — message-identity laws of the derivations -/

/-- C8: for every request `r` (whose message id was allocated in the
past), `CopyRequest(r)` and `r.WithFields(f)` preserve `MessageID()`,
while `r.Clone()` generates a fresh message id different from `r`'s. -/
theorem copy_withFields_preserve_clone_regenerates_messID
    (r : request) (f : Fields) (σ : Nat) (h : r.messID < σ) :
    (CopyRequest r σ).1.messID = r.messID ∧
    (r.WithFields f σ).1.messID = r.messID ∧
    (r.Clone σ).1.messID ≠ r.messID := by
  refine ⟨?_, ?_, ?_⟩
  · simp [CopyRequest, newRequest_messID_some]
  · simp [request.WithFields, newRequest_messID_some]
  · have h1 := uriClone_snd r.recipient σ
    have h2 := cloneHeaders_snd r.headers (r.recipient.Clone σ).2
    simp only [request.Clone, newRequest_messID_none]
    omega

/-- Witness for C8 at the concrete fixture request. -/
theorem copy_withFields_preserve_clone_regenerates_messID_witness :
    wReq.messID < 100 ∧
    ((CopyRequest wReq 100).1.messID = wReq.messID ∧
     (wReq.WithFields [("k", "v")] 100).1.messID = wReq.messID ∧
     (wReq.Clone 100).1.messID ≠ wReq.messID) :=
  ⟨by decide,
   copy_withFields_preserve_clone_regenerates_messID wReq [("k", "v")] 100 (by decide)⟩

/-! ## C3 — CANCEL preserves the top Via hop and its branch -/

/-- C3: whenever `NewCancelRequest` returns a CANCEL for a request with
top Via hop `hop`, the CANCEL's top Via hop is a clone of `hop` unchanged
— the same hop value, so in particular the branch parameter is exactly
the original's (not regenerated). -/
theorem newCancelRequest_preserves_via_branch
    (cancelID : Option MessageID) (req : request) (f : Fields) (σ : Nat)
    (hop : ViaHop) (cancel : request) (σ' : Nat)
    (hvia : viaHopOfHeaders req.headers = some hop)
    (hok : NewCancelRequest cancelID req f σ = .ok (cancel, σ')) :
    viaHopOfHeaders cancel.headers = some hop ∧
    topViaBranch cancel = paramsGet "branch" hop.params := by
  simp only [NewCancelRequest, hvia] at hok
  split at hok
  · exact absurd hok (by simp)
  · rename_i p hcs
    simp only [Except.ok.injEq, Prod.mk.injEq] at hok
    obtain ⟨hc, hσ⟩ := hok
    subst hc
    have hbase : ((cancelBase cancelID req f σ).1).headers = [] := by
      simp [cancelBase, newRequest_headers]
    have hhd :
        ((cancelBase cancelID req f σ).1).headers ++
            [Header.via (cancelBase cancelID req f σ).2 [hop]] ++
            (cancelTail req ((cancelBase cancelID req f σ).2 + 1)).1
          = Header.via (cancelBase cancelID req f σ).2 [hop] ::
              (cancelTail req ((cancelBase cancelID req f σ).2 + 1)).1 := by
      rw [hbase]
      simp
    have hvia' :
        viaHopOfHeaders (setCSeqMethod CANCEL
          (((cancelBase cancelID req f σ).1).headers ++
            [Header.via (cancelBase cancelID req f σ).2 [hop]] ++
            (cancelTail req ((cancelBase cancelID req f σ).2 + 1)).1)) = some hop := by
      have hne : (Header.via (cancelBase cancelID req f σ).2 [hop]).name ≠ "CSeq" := by
        simp only [Header.name]
        decide
      rw [hhd, setCSeqMethod_cons_of_ne _ _ hne]
      exact viaHopOfHeaders_cons_via _ _ _ _
    constructor
    · exact hvia'
    · unfold topViaBranch
      rw [hvia']

/-- The CANCEL derived from the fixture request. -/
def wCancel : request :=
  match NewCancelRequest none wReq [] 100 with
  | .ok (c, _) => c
  | .error _ => wReq

/-- Witness for C3 at the concrete fixture request. -/
theorem newCancelRequest_preserves_via_branch_witness :
    viaHopOfHeaders wReq.headers = some wHop ∧
    NewCancelRequest none wReq [] 100 = .ok (wCancel, 106) ∧
    (viaHopOfHeaders wCancel.headers = some wHop ∧
     topViaBranch wCancel = paramsGet "branch" wHop.params) :=
  ⟨by decide, by decide,
   newCancelRequest_preserves_via_branch none wReq [] 100 wHop wCancel 106
     (by decide) (by decide)⟩

/-! ## C2 — ACK regenerates the Via branch -/

/-- C2: whenever `NewAckRequest` returns an ACK for an INVITE whose top
Via hop carries branch `b` (where `b` is not a token of the globally
unique branch generator), the ACK's top Via hop carries a freshly
generated branch token different from `b` — the 2xx ACK is its own
transaction. -/
theorem newAckRequest_regenerates_branch
    (ackID : Option MessageID) (req : request) (resp : response) (f : Fields)
    (σ : Nat) (hop : ViaHop) (b : String) (ack : request) (σ' : Nat)
    (hvia : viaHopOfHeaders req.headers = some hop)
    (_hbr : paramsGet "branch" hop.params = some (some b))
    (hb : ∀ k, b ≠ branchTok k)
    (hok : NewAckRequest ackID req resp f σ = .ok (ack, σ')) :
    ∃ k, topViaBranch ack = some (some (branchTok k)) ∧ branchTok k ≠ b := by
  obtain ⟨iv, hops, rest, hge⟩ := viaHop_elim hvia
  have hbase : ((ackBase ackID req resp f σ).1).headers = [] := by
    simp [ackBase, newRequest_headers]
  have hvias : (ackVias req (ackBase ackID req resp f σ).2).1
      = Header.via (ackBase ackID req resp f σ).2 (hop :: hops)
        :: (CloneHeaders rest ((ackBase ackID req resp f σ).2 + 1)).1 := by
    simp [ackVias, hge, CloneHeaders, Header.CloneH]
  have hhdrs1 : ((ackBase ackID req resp f σ).1).headers
        ++ (ackVias req (ackBase ackID req resp f σ).2).1
      = Header.via (ackBase ackID req resp f σ).2 (hop :: hops)
        :: (CloneHeaders rest ((ackBase ackID req resp f σ).2 + 1)).1 := by
    rw [hbase, hvias]
    simp
  simp only [NewAckRequest, hhdrs1, viaHopOfHeaders_cons_via, GenerateBranch] at hok
  split at hok
  · exact absurd hok (by simp)
  · rename_i p routes σ4 hroutes
    split at hok
    · exact absurd hok (by simp)
    · rename_i q hcs
      simp only [Except.ok.injEq, Prod.mk.injEq] at hok
      obtain ⟨hack, hσ⟩ := hok
      subst hack
      refine ⟨(ackVias req (ackBase ackID req resp f σ).2).2, ?_, ?_⟩
      · unfold topViaBranch
        rw [setTopViaBranch_cons_via]
        rw [List.cons_append, List.cons_append]
        rw [setCSeqMethod_cons_of_ne _ _ (by simp only [Header.name]; decide)]
        rw [viaHopOfHeaders_cons_via]
        simp only [paramsGet_paramsAdd_self]
      · exact fun he => hb _ he.symm

/-- The ACK derived from the fixture request and response. -/
def wAck : request :=
  match NewAckRequest none wReq wResp [] 100 with
  | .ok (a, _) => a
  | .error _ => wReq

/-- Witness for C2 at the concrete fixtures. -/
theorem newAckRequest_regenerates_branch_witness :
    viaHopOfHeaders wReq.headers = some wHop ∧
    paramsGet "branch" wHop.params = some (some "z9hG4bK-1") ∧
    NewAckRequest none wReq wResp [] 100 = .ok (wAck, 110) ∧
    (∃ k, topViaBranch wAck = some (some (branchTok k)) ∧
      branchTok k ≠ "z9hG4bK-1") :=
  ⟨by decide, by decide, by decide,
   newAckRequest_regenerates_branch none wReq wResp [] 100 wHop "z9hG4bK-1"
     wAck 110 (by decide) (by decide) wBranch_ne_branchTok (by decide)⟩

/-! ## Inversion of the successful constructor runs -/

/-- Inversion of a successful `NewAckRequest` run: the Route step
succeeded and the result is the base request with the assembled,
CSeq-overwritten header list. -/
theorem newAck_ok_inv {ackID : Option MessageID} {req : request}
    {resp : response} {f : Fields} {σ : Nat} {ack : request} {σ' : Nat}
    (hok : NewAckRequest ackID req resp f σ = .ok (ack, σ')) :
    ∃ routes σ4,
      ackRoutes req resp ((ackVias req (ackBase ackID req resp f σ).2).2 + 1)
          = .ok (routes, σ4) ∧
      ack = { (ackBase ackID req resp f σ).1 with
              headers := setCSeqMethod ACK
                (setTopViaBranch (branchTok (ackVias req (ackBase ackID req resp f σ).2).2)
                    (((ackBase ackID req resp f σ).1).headers
                      ++ (ackVias req (ackBase ackID req resp f σ).2).1)
                  ++ routes ++ (ackTail req resp σ4).1) } ∧
      σ' = (ackTail req resp σ4).2 := by
  simp only [NewAckRequest, GenerateBranch] at hok
  split at hok
  · exact absurd hok (by simp)
  · split at hok
    · exact absurd hok (by simp)
    · rename_i p routes σ4 hroutes
      split at hok
      · exact absurd hok (by simp)
      · simp only [Except.ok.injEq, Prod.mk.injEq] at hok
        exact ⟨routes, σ4, hroutes, hok.1.symm, hok.2.symm⟩

/-- Inversion of a successful `NewCancelRequest` run. -/
theorem newCancel_ok_inv {cancelID : Option MessageID} {req : request}
    {f : Fields} {σ : Nat} {cancel : request} {σ' : Nat}
    (hok : NewCancelRequest cancelID req f σ = .ok (cancel, σ')) :
    ∃ hop, viaHopOfHeaders req.headers = some hop ∧
      cancel = { (cancelBase cancelID req f σ).1 with
                 headers := setCSeqMethod CANCEL
                   ((((cancelBase cancelID req f σ).1).headers
                       ++ [Header.via (cancelBase cancelID req f σ).2 [hop]])
                     ++ (cancelTail req ((cancelBase cancelID req f σ).2 + 1)).1) } ∧
      σ' = (cancelTail req ((cancelBase cancelID req f σ).2 + 1)).2 := by
  simp only [NewCancelRequest] at hok
  split at hok
  · exact absurd hok (by simp)
  · rename_i hop hvia
    split at hok
    · exact absurd hok (by simp)
    · simp only [Except.ok.injEq, Prod.mk.injEq] at hok
      exact ⟨hop, hvia, hok.1.symm, hok.2.symm⟩

/-- Every header produced by the Route step is Route-named. -/
theorem ackRoutes_names {req : request} {resp : response} {σ3 : Nat}
    {routes : List Header} {σ4 : Nat}
    (h : ackRoutes req resp σ3 = .ok (routes, σ4)) :
    ∀ h' ∈ routes, h'.name = "Route" := by
  unfold ackRoutes at h
  split at h
  · simp only [Except.ok.injEq] at h
    intro h' hm
    have h1 : routes = (CloneHeaders (GetHeaders "Route" req.headers) σ3).1 := by
      rw [h]
    rw [h1] at hm
    obtain ⟨h0, h0m, he⟩ := mem_cloneHeaders_name hm
    rw [he, mem_getHeaders_name h0m]
  · intro h' hm
    obtain ⟨i, as, he⟩ := (buildAckRoutes_props h).2.2.1 h' hm
    rw [he]
    rfl

/-- The non-Route buckets of the Route step's output are empty. -/
theorem getHeaders_ackRoutes_nil {req : request} {resp : response} {σ3 : Nat}
    {routes : List Header} {σ4 : Nat} {n : String}
    (h : ackRoutes req resp σ3 = .ok (routes, σ4)) (hn : n ≠ "Route") :
    GetHeaders n routes = [] := by
  refine getHeaders_eq_nil ?_
  intro h' hm
  rw [ackRoutes_names h h' hm]
  exact fun e => hn e.symm

/-- Cloning the CSeq bucket preserves the observed CSeq. -/
theorem cseqOf_cloneCSeqBucket {l : List Header} {n : Nat}
    {M : RequestMethod} (σ : Nat) (hcs : cseqOfHeaders l = some (n, M)) :
    cseqOfHeaders (CloneHeaders (GetHeaders "CSeq" l) σ).1 = some (n, M) := by
  obtain ⟨i, rest, he⟩ := cseq_elim hcs
  rw [he]
  simp only [CloneHeaders, Header.CloneH]
  unfold cseqOfHeaders
  rw [getHeaders_cons_of_name _ (show (Header.cseq σ n M).name = "CSeq" from rfl)]
  rfl

/-- The CSeq visible in the ACK's assembled tail is the request's. -/
theorem cseqOf_ackTail {req : request} {resp : response} {σ4 : Nat}
    {n : Nat} {M : RequestMethod}
    (hcs : cseqOfHeaders req.headers = some (n, M)) :
    cseqOfHeaders (ackTail req resp σ4).1 = some (n, M) := by
  simp only [ackTail]
  rw [cseqOfHeaders_append_left_nil
      (getHeaders_cloneHeaders_getHeaders_eq_nil _ _ (by decide)),
    cseqOfHeaders_append_left_nil
      (getHeaders_cloneHeaders_getHeaders_eq_nil _ _ (by decide)),
    cseqOfHeaders_append_left_nil
      (getHeaders_cloneHeaders_getHeaders_eq_nil _ _ (by decide))]
  exact cseqOf_cloneCSeqBucket _ hcs

/-- The CSeq visible in the CANCEL's assembled tail is the request's. -/
theorem cseqOf_cancelTail {req : request} {σ2 : Nat} {n : Nat}
    {M : RequestMethod} (hcs : cseqOfHeaders req.headers = some (n, M)) :
    cseqOfHeaders (cancelTail req σ2).1 = some (n, M) := by
  simp only [cancelTail]
  rw [cseqOfHeaders_append_left_nil
      (getHeaders_cloneHeaders_getHeaders_eq_nil _ _ (by decide)),
    cseqOfHeaders_append_left_nil
      (getHeaders_cloneHeaders_getHeaders_eq_nil _ _ (by decide)),
    cseqOfHeaders_append_left_nil
      (getHeaders_cloneHeaders_getHeaders_eq_nil _ _ (by decide)),
    cseqOfHeaders_append_left_nil
      (getHeaders_cloneHeaders_getHeaders_eq_nil _ _ (by decide))]
  exact cseqOf_cloneCSeqBucket _ hcs

/-! ## C7 — CSeq method substitution, number retained -/

/-- C7: for a source request carrying CSeq `(n, M)`, a successfully built
ACK carries CSeq `(n, ACK)` and a successfully built CANCEL carries CSeq
`(n, CANCEL)`: the sequence number is retained, only the method token is
overwritten. -/
theorem ack_cancel_cseq_substitution
    (ackID cancelID : Option MessageID) (req : request) (resp : response)
    (f g : Fields) (σ τ : Nat) (n : Nat) (M : RequestMethod)
    (ack cancel : request) (σ' τ' : Nat)
    (hcs : cseqOfHeaders req.headers = some (n, M))
    (hokA : NewAckRequest ackID req resp f σ = .ok (ack, σ'))
    (hokC : NewCancelRequest cancelID req g τ = .ok (cancel, τ')) :
    cseqOfHeaders ack.headers = some (n, ACK) ∧
    cseqOfHeaders cancel.headers = some (n, CANCEL) := by
  constructor
  · obtain ⟨routes, σ4, hroutes, hack, hσ⟩ := newAck_ok_inv hokA
    subst hack
    show cseqOfHeaders (setCSeqMethod ACK _) = some (n, ACK)
    rw [cseqOf_setCSeqMethod]
    have hbase : ((ackBase ackID req resp f σ).1).headers = [] := by
      simp [ackBase, newRequest_headers]
    have hA : GetHeaders "CSeq"
        (setTopViaBranch (branchTok (ackVias req (ackBase ackID req resp f σ).2).2)
            (((ackBase ackID req resp f σ).1).headers
              ++ (ackVias req (ackBase ackID req resp f σ).2).1)
          ++ routes) = [] := by
      rw [getHeaders_append,
        setTopViaBranch_getHeaders _ _ (by decide),
        getHeaders_append, hbase,
        getHeaders_ackRoutes_nil hroutes (by decide)]
      have hv : GetHeaders "CSeq" (ackVias req (ackBase ackID req resp f σ).2).1 = [] :=
        getHeaders_cloneHeaders_getHeaders_eq_nil _ _ (by decide)
      rw [hv]
      rfl
    rw [cseqOfHeaders_append_left_nil hA, cseqOf_ackTail hcs]
    rfl
  · obtain ⟨hop, hvia, hcan, hσ'⟩ := newCancel_ok_inv hokC
    subst hcan
    show cseqOfHeaders (setCSeqMethod CANCEL _) = some (n, CANCEL)
    rw [cseqOf_setCSeqMethod]
    have hbase : ((cancelBase cancelID req g τ).1).headers = [] := by
      simp [cancelBase, newRequest_headers]
    have hA : GetHeaders "CSeq"
        (((cancelBase cancelID req g τ).1).headers
          ++ [Header.via (cancelBase cancelID req g τ).2 [hop]]) = [] := by
      rw [getHeaders_append, hbase]
      simp [GetHeaders, List.filter_cons, Header.name]
    rw [cseqOfHeaders_append_left_nil hA, cseqOf_cancelTail hcs]
    rfl

/-- Witness for C7 at the concrete fixtures. -/
theorem ack_cancel_cseq_substitution_witness :
    cseqOfHeaders wReq.headers = some (42, INVITE) ∧
    NewAckRequest none wReq wResp [] 100 = .ok (wAck, 110) ∧
    NewCancelRequest none wReq [] 100 = .ok (wCancel, 106) ∧
    (cseqOfHeaders wAck.headers = some (42, ACK) ∧
     cseqOfHeaders wCancel.headers = some (42, CANCEL)) :=
  ⟨by decide, by decide, by decide,
   ack_cancel_cseq_substitution none none wReq wResp [] [] 100 100 42 INVITE
     wAck wCancel 110 106 (by decide) (by decide) (by decide)⟩

/-! ## C1 — Record-Route reversal -/

theorem getHeaders_route_ackTail_nil (req : request) (resp : response)
    (σ4 : Nat) : GetHeaders "Route" (ackTail req resp σ4).1 = [] := by
  simp only [ackTail]
  rw [getHeaders_append,
    getHeaders_cloneHeaders_getHeaders_eq_nil _ _ (by decide),
    getHeaders_append,
    getHeaders_cloneHeaders_getHeaders_eq_nil _ _ (by decide),
    getHeaders_append,
    getHeaders_cloneHeaders_getHeaders_eq_nil _ _ (by decide),
    getHeaders_cloneHeaders_getHeaders_eq_nil _ _ (by decide)]
  rfl

/-- C1 (amended): when the original request has no Route headers, a
successfully built ACK carries one Route header per Record-Route header
line of the response, in the same line order, each line's address list
reversed element-by-element (addresses cloned).  Reversal happens within
each line only — the lines themselves are not reversed. -/
theorem newAckRequest_route_reversal_per_line
    (ackID : Option MessageID) (req : request) (resp : response) (f : Fields)
    (σ : Nat) (ack : request) (σ' : Nat)
    (hnoroute : GetHeaders "Route" req.headers = [])
    (hok : NewAckRequest ackID req resp f σ = .ok (ack, σ')) :
    (GetHeaders "Route" ack.headers).map (fun h => (h.addrsOf).map Uri.stripId)
      = (GetHeaders "Record-Route" resp.headers).map
          (fun h => ((h.addrsOf).reverse).map Uri.stripId) := by
  obtain ⟨routes, σ4, hroutes, hack, hσ⟩ := newAck_ok_inv hok
  subst hack
  have hbase : ((ackBase ackID req resp f σ).1).headers = [] := by
    simp [ackBase, newRequest_headers]
  have hroute_bucket :
      GetHeaders "Route" (setCSeqMethod ACK
        (setTopViaBranch (branchTok (ackVias req (ackBase ackID req resp f σ).2).2)
            (((ackBase ackID req resp f σ).1).headers
              ++ (ackVias req (ackBase ackID req resp f σ).2).1)
          ++ routes ++ (ackTail req resp σ4).1)) = routes := by
    rw [setCSeqMethod_getHeaders _ _ (by decide),
      getHeaders_append, getHeaders_append,
      setTopViaBranch_getHeaders _ _ (by decide),
      getHeaders_append, hbase]
    have hv : GetHeaders "Route" (ackVias req (ackBase ackID req resp f σ).2).1 = [] :=
      getHeaders_cloneHeaders_getHeaders_eq_nil _ _ (by decide)
    rw [hv, getHeaders_route_ackTail_nil,
      getHeaders_eq_self (ackRoutes_names hroutes)]
    simp [GetHeaders]
  show (GetHeaders "Route" (setCSeqMethod ACK _)).map _ = _
  rw [hroute_bucket]
  unfold ackRoutes at hroutes
  rw [if_neg (by rw [hnoroute]; decide)] at hroutes
  exact (buildAckRoutes_props hroutes).2.2.2

/-- A response carrying its two Record-Route addresses as two separate
header lines (`R1` on the first line, `R2` on the second). -/
def cResp : response :=
  { messID := 20, sipVersion := "SIP/2.0"
    headers := [.recordRoute 21 [.sip 22 "r1.test" none],
                .recordRoute 23 [.sip 24 "r2.test" none]] }

/-- The ACK derived over the two-line Record-Route response. -/
def cAck : request :=
  match NewAckRequest none wReq cResp [] 200 with
  | .ok (a, _) => a
  | .error _ => wReq

/-- C1 counterexample: with Record-Route header lines `[R1]`, `[R2]` (in
that header order) and no Route headers on the original request, the
derived ACK's Route set is `[R1, R2]` — the header lines are processed
independently and are NOT reversed across lines, so the overall route set
is not `[R2, R1]` as the claim states. -/
theorem newAckRequest_multiline_recordRoute_not_reversed :
    GetHeaders "Route" wReq.headers = [] ∧
    isOkE (NewAckRequest none wReq cResp [] 200) = true ∧
    ((GetHeaders "Route" cAck.headers).map
        (fun h => (h.addrsOf).map Uri.stripId)).flatten
      = [Uri.sip 0 "r1.test" none, Uri.sip 0 "r2.test" none] ∧
    ((GetHeaders "Route" cAck.headers).map
        (fun h => (h.addrsOf).map Uri.stripId)).flatten
      ≠ [Uri.sip 0 "r2.test" none, Uri.sip 0 "r1.test" none] := by
  decide

/-- Witness for the amended C1 at concrete fixtures: a single
Record-Route line `[R1, R2]` is reversed to `[R2, R1]`, and the two-line
response keeps its line order. -/
theorem newAckRequest_route_reversal_per_line_witness :
    GetHeaders "Route" wReq.headers = [] ∧
    NewAckRequest none wReq wResp [] 100 = .ok (wAck, 110) ∧
    (GetHeaders "Route" wAck.headers).map (fun h => (h.addrsOf).map Uri.stripId)
      = (GetHeaders "Record-Route" wResp.headers).map
          (fun h => ((h.addrsOf).reverse).map Uri.stripId) ∧
    (GetHeaders "Route" wAck.headers).map (fun h => (h.addrsOf).map Uri.stripId)
      = [[Uri.sip 0 "r2.test" none, Uri.sip 0 "r1.test" none]] :=
  ⟨by decide, by decide,
   newAckRequest_route_reversal_per_line none wReq wResp [] 100 wAck 110
     (by decide) (by decide),
   by decide⟩

/-! ## C4 — no-error claim of the derivation constructors -/

/-- A request carrying CSeq but no Via header. -/
def cReqNoVia : request :=
  { messID := 30, sipVersion := "SIP/2.0"
    headers := [.generic 31 "From" "alice", .generic 37 "To" "bob",
                .generic 38 "Call-ID" "cid3", .cseq 32 7 INVITE]
    body := "", fields := [], src := "", dest := "", transport := "UDP"
    method := INVITE, recipient := .sip 33 "bob.test" none }

/-- A request carrying a Via header but no CSeq header. -/
def cReqNoCSeq : request :=
  { messID := 34, sipVersion := "SIP/2.0"
    headers := [.via 35 [wHop], .generic 36 "From" "alice"]
    body := "", fields := [], src := "", dest := "", transport := "UDP"
    method := INVITE, recipient := .sip 39 "bob.test" none }

/-- C4 counterexample: a source request lacking a top Via hop, or lacking
a CSeq header, makes both derivation constructors crash (nil dereference,
modelled as `.error ()`) instead of degrading to a best-effort request. -/
theorem derivation_constructors_crash_on_missing_via_or_cseq :
    NewAckRequest none cReqNoVia wResp [] 300 = .error () ∧
    NewCancelRequest none cReqNoVia [] 300 = .error () ∧
    NewAckRequest none cReqNoCSeq wResp [] 300 = .error () ∧
    NewCancelRequest none cReqNoCSeq [] 300 = .error () := by
  decide

/-- The Record-Route loop succeeds when every Record-Route-named header is
a genuine Record-Route header. -/
theorem buildAckRoutes_total {l : List Header}
    (hrr : ∀ h ∈ l, ∃ i as, h = Header.recordRoute i as) (σ : Nat) :
    ∃ routes σ', buildAckRoutes l σ = .ok (routes, σ') := by
  induction l generalizing σ with
  | nil => exact ⟨[], σ, rfl⟩
  | cons hd t ih =>
    obtain ⟨i, as, he⟩ := hrr hd (List.mem_cons_self hd t)
    subst he
    obtain ⟨rest, σ2, hb⟩ :=
      ih (fun h hm => hrr h (List.mem_cons_of_mem _ hm)) ((cloneUris as.reverse σ).2 + 1)
    refine ⟨Header.route (cloneUris as.reverse σ).2 (cloneUris as.reverse σ).1 :: rest, σ2, ?_⟩
    simp only [buildAckRoutes, hb]

/-- C4 (amended): no error value is ever returned — a response lacking a
Contact degrades to the original recipient — but only for source requests
that do carry a top Via hop and a CSeq header (and, on the ACK path, a
response whose Record-Route-named headers are genuine Record-Route
headers): then both constructors return a fully formed request.  Requests
missing Via or CSeq crash instead (see the counterexample). -/
theorem newAck_newCancel_total_given_via_cseq
    (ackID cancelID : Option MessageID) (req : request) (resp : response)
    (f g : Fields) (σ τ : Nat) (hop : ViaHop) (n : Nat) (M : RequestMethod)
    (hvia : viaHopOfHeaders req.headers = some hop)
    (hcs : cseqOfHeaders req.headers = some (n, M))
    (hrr : ∀ h ∈ GetHeaders "Record-Route" resp.headers,
      ∃ i as, h = Header.recordRoute i as) :
    (∃ ack σ', NewAckRequest ackID req resp f σ = .ok (ack, σ')) ∧
    (∃ cancel τ', NewCancelRequest cancelID req g τ = .ok (cancel, τ')) ∧
    (contactAddrOf resp = none →
      ∀ ack σ', NewAckRequest ackID req resp f σ = .ok (ack, σ') →
        ack.recipient = req.recipient) := by
  obtain ⟨iv, hops, rest, hge⟩ := viaHop_elim hvia
  have hbase : ((ackBase ackID req resp f σ).1).headers = [] := by
    simp [ackBase, newRequest_headers]
  have hhdrs1 : ((ackBase ackID req resp f σ).1).headers
        ++ (ackVias req (ackBase ackID req resp f σ).2).1
      = Header.via (ackBase ackID req resp f σ).2 (hop :: hops)
        :: (CloneHeaders rest ((ackBase ackID req resp f σ).2 + 1)).1 := by
    rw [hbase]
    simp [ackVias, hge, CloneHeaders, Header.CloneH]
  have hvh : viaHopOfHeaders (((ackBase ackID req resp f σ).1).headers
      ++ (ackVias req (ackBase ackID req resp f σ).2).1) = some hop := by
    rw [hhdrs1]
    exact viaHopOfHeaders_cons_via _ _ _ _
  have hroutesE : ∃ routes σ4,
      ackRoutes req resp ((ackVias req (ackBase ackID req resp f σ).2).2 + 1)
        = .ok (routes, σ4) := by
    unfold ackRoutes
    by_cases hn : (GetHeaders "Route" req.headers).length > 0
    · rw [if_pos hn]
      exact ⟨_, _, rfl⟩
    · rw [if_neg hn]
      exact buildAckRoutes_total hrr _
  obtain ⟨routes, σ4, hroutes⟩ := hroutesE
  have hA : GetHeaders "CSeq"
      (setTopViaBranch (branchTok (ackVias req (ackBase ackID req resp f σ).2).2)
          (((ackBase ackID req resp f σ).1).headers
            ++ (ackVias req (ackBase ackID req resp f σ).2).1)
        ++ routes) = [] := by
    rw [getHeaders_append,
      setTopViaBranch_getHeaders _ _ (by decide),
      getHeaders_append, hbase,
      getHeaders_ackRoutes_nil hroutes (by decide)]
    have hv : GetHeaders "CSeq" (ackVias req (ackBase ackID req resp f σ).2).1 = [] :=
      getHeaders_cloneHeaders_getHeaders_eq_nil _ _ (by decide)
    rw [hv]
    rfl
  have hcs3 : cseqOfHeaders
      (setTopViaBranch (branchTok (ackVias req (ackBase ackID req resp f σ).2).2)
          (((ackBase ackID req resp f σ).1).headers
            ++ (ackVias req (ackBase ackID req resp f σ).2).1)
        ++ routes ++ (ackTail req resp σ4).1) = some (n, M) := by
    rw [cseqOfHeaders_append_left_nil hA, cseqOf_ackTail hcs]
  have hackok : NewAckRequest ackID req resp f σ
      = .ok ({ (ackBase ackID req resp f σ).1 with
               headers := setCSeqMethod ACK
                 (setTopViaBranch (branchTok (ackVias req (ackBase ackID req resp f σ).2).2)
                     (((ackBase ackID req resp f σ).1).headers
                       ++ (ackVias req (ackBase ackID req resp f σ).2).1)
                   ++ routes ++ (ackTail req resp σ4).1) },
             (ackTail req resp σ4).2) := by
    simp only [NewAckRequest, GenerateBranch, hvh, hroutes, hcs3]
  refine ⟨⟨_, _, hackok⟩, ?_, ?_⟩
  · have hBc : GetHeaders "CSeq"
        (((cancelBase cancelID req g τ).1).headers
          ++ [Header.via (cancelBase cancelID req g τ).2 [hop]]) = [] := by
      rw [getHeaders_append]
      rw [show ((cancelBase cancelID req g τ).1).headers = []
        from by simp [cancelBase, newRequest_headers]]
      simp [GetHeaders, List.filter_cons, Header.name]
    have hcs2 : cseqOfHeaders
        ((((cancelBase cancelID req g τ).1).headers
            ++ [Header.via (cancelBase cancelID req g τ).2 [hop]])
          ++ (cancelTail req ((cancelBase cancelID req g τ).2 + 1)).1)
        = some (n, M) := by
      rw [cseqOfHeaders_append_left_nil hBc, cseqOf_cancelTail hcs]
    refine ⟨{ (cancelBase cancelID req g τ).1 with
              headers := setCSeqMethod CANCEL
                ((((cancelBase cancelID req g τ).1).headers
                    ++ [Header.via (cancelBase cancelID req g τ).2 [hop]])
                  ++ (cancelTail req ((cancelBase cancelID req g τ).2 + 1)).1) },
            (cancelTail req ((cancelBase cancelID req g τ).2 + 1)).2, ?_⟩
    simp only [NewCancelRequest, hvia, hcs2]
  · intro hc ack σ' hok
    obtain ⟨routes', σ4', hroutes', hack, hσ⟩ := newAck_ok_inv hok
    subst hack
    show ((ackBase ackID req resp f σ).1).recipient = req.recipient
    simp [ackBase, newRequest_recipient, ackRecipient, hc]

/-- Witness for the amended C4 at the concrete fixtures. -/
theorem newAck_newCancel_total_given_via_cseq_witness :
    viaHopOfHeaders wReq.headers = some wHop ∧
    cseqOfHeaders wReq.headers = some (42, INVITE) ∧
    ((∃ ack σ', NewAckRequest none wReq cResp [] 100 = .ok (ack, σ')) ∧
     (∃ cancel τ', NewCancelRequest none wReq [] 100 = .ok (cancel, τ')) ∧
     (contactAddrOf cResp = none →
       ∀ ack σ', NewAckRequest none wReq cResp [] 100 = .ok (ack, σ') →
         ack.recipient = wReq.recipient)) :=
  ⟨by decide, by decide,
   newAck_newCancel_total_given_via_cseq none none wReq cResp [] [] 100 100
     wHop 42 INVITE (by decide) (by decide)
     (by
       intro h hm
       have e : GetHeaders "Record-Route" cResp.headers
           = [Header.recordRoute 21 [Uri.sip 22 "r1.test" none],
              Header.recordRoute 23 [Uri.sip 24 "r2.test" none]] := by decide
       rw [e] at hm
       rcases (by simpa using hm :
           h = Header.recordRoute 21 [Uri.sip 22 "r1.test" none] ∨
           h = Header.recordRoute 23 [Uri.sip 24 "r2.test" none]) with h1 | h1
       · exact ⟨_, _, h1⟩
       · exact ⟨_, _, h1⟩)⟩

/-! ## C5 — source address resolution -/

/-- The host rule in the words of the (amended) claim: prefer a present,
non-nil, non-empty `received` parameter, else the Via hop's own host. -/
def claimSourceHost (hop : ViaHop) : String :=
  match paramsGet "received" hop.params with
  | some (some s) => if s = "" then hop.host else s
  | _ => hop.host

/-- The port rule in the words of the claim: a present, non-nil,
non-empty `rport` parsed best-effort as an unsigned 16-bit integer (a
parse failure yields zero), else the hop's explicit port, else the
transport's default port. -/
def claimSourcePort (hop : ViaHop) (transport : String) : Port :=
  match paramsGet "rport" hop.params with
  | some (some s) =>
    if s = "" then
      match hop.port with
      | some p => p
      | none => DefaultPort transport
    else uint16Of (goAtoi s)
  | _ =>
    match hop.port with
    | some p => p
    | none => DefaultPort transport

/-- C5 (amended): with no cached src override, `Source()` returns `""`
when no top Via hop exists; otherwise `"host:port"` with host and port as
the claim states — except that a `received` parameter that is present
with a nil value crashes (`received.String()` is called without a nil
check), returning no string at all. -/
theorem source_resolution_amended (r : request) (hsrc : r.src = "") :
    (viaHopOfHeaders r.headers = none → r.Source = .ok "") ∧
    (∀ hop, viaHopOfHeaders r.headers = some hop →
      (paramsGet "received" hop.params = some none → r.Source = .error ()) ∧
      (paramsGet "received" hop.params ≠ some none →
        r.Source = .ok (claimSourceHost hop ++ ":" ++
          Nat.repr (claimSourcePort hop r.transport)))) := by
  unfold request.Source
  rw [hsrc]
  rw [if_neg (by simp)]
  constructor
  · intro h
    rw [h]
  · intro hop hvia
    rw [hvia]
    dsimp only
    constructor
    · intro hr
      rw [hr]
    · intro hr
      cases e : paramsGet "received" hop.params with
      | none =>
        cases e2 : paramsGet "rport" hop.params with
        | none => simp [claimSourceHost, claimSourcePort, e, e2]
        | some v =>
          cases v with
          | none => simp [claimSourceHost, claimSourcePort, e, e2]
          | some s =>
            by_cases hs : s = "" <;>
              simp [claimSourceHost, claimSourcePort, e, e2, hs]
      | some v =>
        cases v with
        | none => exact absurd e hr
        | some s0 =>
          cases e2 : paramsGet "rport" hop.params with
          | none =>
            by_cases hs0 : s0 = "" <;>
              simp [claimSourceHost, claimSourcePort, e, e2, hs0]
          | some v2 =>
            cases v2 with
            | none =>
              by_cases hs0 : s0 = "" <;>
                simp [claimSourceHost, claimSourcePort, e, e2, hs0]
            | some s =>
              by_cases hs0 : s0 = "" <;> by_cases hs : s = "" <;>
                simp [claimSourceHost, claimSourcePort, e, e2, hs0, hs]

/-- A request whose Via carries a valueless (nil) `received` parameter. -/
def srcNilReq : request :=
  { messID := 40, sipVersion := "SIP/2.0"
    headers := [.via 41 [⟨"h.test", some 5060, [("received", none)]⟩]]
    body := "", fields := [], src := "", dest := "", transport := "UDP"
    method := INVITE, recipient := .sip 42 "bob.test" none }

/-- C5 counterexample: a top Via hop whose `received` parameter is
present but nil makes `Source()` crash (`received.String()` on a nil
interface value) instead of returning `"h.test:5060"` as the claim's
fallback chain states. -/
theorem source_crashes_on_nil_received :
    srcNilReq.src = "" ∧
    viaHopOfHeaders srcNilReq.headers
      = some ⟨"h.test", some 5060, [("received", none)]⟩ ∧
    srcNilReq.Source = .error () := by
  decide

/-- Witness for the amended C5 at the fixture request. -/
theorem source_resolution_amended_witness :
    wReq.src = "" ∧
    ((viaHopOfHeaders wReq.headers = none → wReq.Source = .ok "") ∧
     (∀ hop, viaHopOfHeaders wReq.headers = some hop →
       (paramsGet "received" hop.params = some none → wReq.Source = .error ()) ∧
       (paramsGet "received" hop.params ≠ some none →
         wReq.Source = .ok (claimSourceHost hop ++ ":" ++
           Nat.repr (claimSourcePort hop wReq.transport))))) :=
  ⟨rfl, source_resolution_amended wReq rfl⟩

/-! ## C6 / C10 — destination address resolution -/

/-- C6 (amended): with no cached dest override, the first address of the
first Route header governs when the Route header is a genuine Route
header holding a SIP URI first address — the result is its
`"host:port"` (explicit port, else transport default) regardless of
recipient; a non-SIP first Route address, or a Route-named header of
another variant, crashes (failed type assertion); with no Route headers
the recipient governs: its `"host:port"` if it is the concrete SIP-URI
variant, the empty string otherwise. -/
theorem destination_resolution_amended (r : request) (hd : r.dest = "") :
    (∀ i j h p as tl,
      GetHeaders "Route" r.headers = Header.route i (Uri.sip j h p :: as) :: tl →
        r.Destination = .ok (h ++ ":" ++
          Nat.repr (match p with | some q => q | none => DefaultPort r.transport))) ∧
    (∀ i j d as tl,
      GetHeaders "Route" r.headers = Header.route i (Uri.other j d :: as) :: tl →
        r.Destination = .error ()) ∧
    (∀ x n v tl,
      GetHeaders "Route" r.headers = Header.generic x n v :: tl →
        r.Destination = .error ()) ∧
    (GetHeaders "Route" r.headers = [] →
      ((∀ j h p, r.recipient = Uri.sip j h p →
         r.Destination = .ok (h ++ ":" ++
           Nat.repr (match p with | some q => q | none => DefaultPort r.transport))) ∧
       (∀ j d, r.recipient = Uri.other j d → r.Destination = .ok ""))) := by
  unfold request.Destination
  rw [hd]
  rw [if_neg (by simp)]
  refine ⟨?_, ?_, ?_, ?_⟩
  · intro i j h p as tl hroute
    rw [hroute]
  · intro i j d as tl hroute
    rw [hroute]
  · intro x n v tl hroute
    rw [hroute]
  · intro hroute
    rw [hroute]
    constructor
    · intro j h p hrec
      rw [hrec]
    · intro j d hrec
      rw [hrec]

/-- A request whose first Route address is not a SIP URI. -/
def destOtherReq : request :=
  { messID := 50, sipVersion := "SIP/2.0"
    headers := [.route 51 [.other 52 "tel:+1234"]]
    body := "", fields := [], src := "", dest := "", transport := "UDP"
    method := INVITE, recipient := .sip 53 "bob.test" none }

/-- C6 counterexample: a Route header whose first address is a non-SIP
URI variant makes `Destination()` crash (the `.(*SipUri)` type assertion
fails) instead of returning that URI's `"host:port"` as the claim
states. -/
theorem destination_crashes_on_non_sip_route_address :
    destOtherReq.dest = "" ∧
    GetHeaders "Route" destOtherReq.headers
      = [Header.route 51 [Uri.other 52 "tel:+1234"]] ∧
    destOtherReq.Destination = .error () := by
  decide

/-- A request routed through `sip:proxy.example.com:5080` whose recipient
is not even a SIP URI. -/
def destRouteReq : request :=
  { messID := 54, sipVersion := "SIP/2.0"
    headers := [.route 55 [.sip 56 "proxy.example.com" (some 5080)]]
    body := "", fields := [], src := "", dest := "", transport := "UDP"
    method := INVITE, recipient := .other 57 "tel:+999" }

/-- Witness for the amended C6: the Route-governed fixture resolves to
`proxy.example.com:5080` regardless of recipient. -/
theorem destination_resolution_amended_witness :
    destRouteReq.dest = "" ∧
    ((∀ i j h p as tl,
      GetHeaders "Route" destRouteReq.headers
          = Header.route i (Uri.sip j h p :: as) :: tl →
        destRouteReq.Destination = .ok (h ++ ":" ++
          Nat.repr (match p with | some q => q | none => DefaultPort destRouteReq.transport))) ∧
     (∀ i j d as tl,
      GetHeaders "Route" destRouteReq.headers
          = Header.route i (Uri.other j d :: as) :: tl →
        destRouteReq.Destination = .error ()) ∧
     (∀ x n v tl,
      GetHeaders "Route" destRouteReq.headers = Header.generic x n v :: tl →
        destRouteReq.Destination = .error ()) ∧
     (GetHeaders "Route" destRouteReq.headers = [] →
       ((∀ j h p, destRouteReq.recipient = Uri.sip j h p →
          destRouteReq.Destination = .ok (h ++ ":" ++
            Nat.repr (match p with | some q => q | none => DefaultPort destRouteReq.transport))) ∧
        (∀ j d, destRouteReq.recipient = Uri.other j d →
          destRouteReq.Destination = .ok "")))) ∧
    destRouteReq.Destination = .ok "proxy.example.com:5080" :=
  ⟨rfl, destination_resolution_amended destRouteReq rfl, by decide⟩

/-- C10: with no cached dest override, Route headers present but the
first Route header carrying an empty address list, `Destination()` does
not fail on the Route branch: it falls back to the recipient exactly as
in the no-Route case — `"host:port"` for a concrete SIP-URI recipient,
the empty string for any other recipient variant. -/
theorem destination_empty_route_falls_back
    (r : request) (i : Nat) (tl : List Header) (hd : r.dest = "")
    (hroute : GetHeaders "Route" r.headers = Header.route i [] :: tl) :
    (∀ j h p, r.recipient = Uri.sip j h p →
       r.Destination = .ok (h ++ ":" ++
         Nat.repr (match p with | some q => q | none => DefaultPort r.transport))) ∧
    (∀ j d, r.recipient = Uri.other j d → r.Destination = .ok "") := by
  unfold request.Destination
  rw [hd]
  rw [if_neg (by simp)]
  rw [hroute]
  constructor
  · intro j h p hrec
    rw [hrec]
  · intro j d hrec
    rw [hrec]

/-- A request with one Route header holding no addresses and a SIP-URI
recipient with an explicit port. -/
def emptyRouteReq : request :=
  { messID := 58, sipVersion := "SIP/2.0"
    headers := [.route 59 []]
    body := "", fields := [], src := "", dest := "", transport := "UDP"
    method := INVITE, recipient := .sip 60 "bob.test" (some 5070) }

/-- Witness for C10 at the empty-Route fixture. -/
theorem destination_empty_route_falls_back_witness :
    emptyRouteReq.dest = "" ∧
    GetHeaders "Route" emptyRouteReq.headers = Header.route 59 [] :: [] ∧
    ((∀ j h p, emptyRouteReq.recipient = Uri.sip j h p →
       emptyRouteReq.Destination = .ok (h ++ ":" ++
         Nat.repr (match p with | some q => q | none => DefaultPort emptyRouteReq.transport))) ∧
     (∀ j d, emptyRouteReq.recipient = Uri.other j d →
       emptyRouteReq.Destination = .ok "")) ∧
    emptyRouteReq.Destination = .ok "bob.test:5070" :=
  ⟨rfl, by decide,
   destination_empty_route_falls_back emptyRouteReq 59 [] rfl (by decide),
   by decide⟩

/-! ## C9 — ownership of the derived object graphs -/

theorem headers_set (r : request) (H : List Header) :
    ({ r with headers := H } : request).headers = H := rfl

theorem ackRoutes_ge {req : request} {resp : response} {σ3 : Nat}
    {routes : List Header} {σ4 : Nat}
    (h : ackRoutes req resp σ3 = .ok (routes, σ4)) :
    σ3 ≤ σ4 ∧ ∀ i ∈ headersIds routes, σ3 ≤ i := by
  unfold ackRoutes at h
  split at h
  · simp only [Except.ok.injEq] at h
    have h1 : routes = (CloneHeaders (GetHeaders "Route" req.headers) σ3).1 := by
      rw [h]
    have h2 : σ4 = (CloneHeaders (GetHeaders "Route" req.headers) σ3).2 := by
      rw [h]
    subst h1
    subst h2
    exact ⟨cloneHeaders_snd _ _, fun i hi => ((cloneHeaders_ids _ _) i hi).1⟩
  · obtain ⟨hm, hids, _, _⟩ := buildAckRoutes_props h
    exact ⟨hm, fun i hi => (hids i hi).1⟩

theorem ackTail_ids_ge (req : request) (resp : response) (σ4 : Nat) :
    ∀ i ∈ headersIds (ackTail req resp σ4).1, σ4 ≤ i := by
  intro i hi
  simp only [ackTail, headersIds_append, List.mem_append] at hi
  have s5 := cloneHeaders_snd (GetHeaders "From" req.headers) σ4
  have s6 := cloneHeaders_snd (GetHeaders "To" resp.headers)
    (CloneHeaders (GetHeaders "From" req.headers) σ4).2
  have s7 := cloneHeaders_snd (GetHeaders "Call-ID" req.headers)
    (CloneHeaders (GetHeaders "To" resp.headers)
      (CloneHeaders (GetHeaders "From" req.headers) σ4).2).2
  rcases hi with h1 | h2 | h3 | h4
  · exact ((cloneHeaders_ids _ _) i h1).1
  · have := ((cloneHeaders_ids _ _) i h2).1
    omega
  · have := ((cloneHeaders_ids _ _) i h3).1
    omega
  · have := ((cloneHeaders_ids _ _) i h4).1
    omega

theorem cancelTail_ids_ge (req : request) (σ2 : Nat) :
    ∀ i ∈ headersIds (cancelTail req σ2).1, σ2 ≤ i := by
  intro i hi
  simp only [cancelTail, headersIds_append, List.mem_append] at hi
  have s3 := cloneHeaders_snd (GetHeaders "Route" req.headers) σ2
  have s4 := cloneHeaders_snd (GetHeaders "From" req.headers)
    (CloneHeaders (GetHeaders "Route" req.headers) σ2).2
  have s5 := cloneHeaders_snd (GetHeaders "To" req.headers)
    (CloneHeaders (GetHeaders "From" req.headers)
      (CloneHeaders (GetHeaders "Route" req.headers) σ2).2).2
  have s6 := cloneHeaders_snd (GetHeaders "Call-ID" req.headers)
    (CloneHeaders (GetHeaders "To" req.headers)
      (CloneHeaders (GetHeaders "From" req.headers)
        (CloneHeaders (GetHeaders "Route" req.headers) σ2).2).2).2
  rcases hi with h1 | h2 | h3 | h4 | h5
  · exact ((cloneHeaders_ids _ _) i h1).1
  · have := ((cloneHeaders_ids _ _) i h2).1
    omega
  · have := ((cloneHeaders_ids _ _) i h3).1
    omega
  · have := ((cloneHeaders_ids _ _) i h4).1
    omega
  · have := ((cloneHeaders_ids _ _) i h5).1
    omega

theorem newAck_headersIds_ge {ackID : Option MessageID} {req : request}
    {resp : response} {f : Fields} {σ : Nat} {ack : request} {σ' : Nat}
    (hok : NewAckRequest ackID req resp f σ = .ok (ack, σ')) :
    ∀ i ∈ headersIds ack.headers, σ ≤ i := by
  obtain ⟨routes, σ4, hroutes, hack, hσ⟩ := newAck_ok_inv hok
  have hbase : ((ackBase ackID req resp f σ).1).headers = [] := by
    simp [ackBase, newRequest_headers]
  have hσ1 : σ ≤ (ackBase ackID req resp f σ).2 := newRequest_snd_ge _ _ _ _ _ _ _ _
  have hσ2 : (ackBase ackID req resp f σ).2 ≤ (ackVias req (ackBase ackID req resp f σ).2).2 :=
    cloneHeaders_snd _ _
  obtain ⟨hσ34, hrids⟩ := ackRoutes_ge hroutes
  intro i hi
  rw [hack, headers_set, headersIds_setCSeqMethod, headersIds_append,
    headersIds_append, headersIds_setTopViaBranch, headersIds_append,
    hbase, headersIds_nil] at hi
  simp only [List.nil_append, List.mem_append] at hi
  rcases hi with (h1 | h2) | h3
  · have : (ackBase ackID req resp f σ).2 ≤ i := ((cloneHeaders_ids _ _) i h1).1
    omega
  · have := hrids i h2
    omega
  · have := ackTail_ids_ge req resp σ4 i h3
    omega

theorem newCancel_headersIds_ge {cancelID : Option MessageID} {req : request}
    {f : Fields} {σ : Nat} {cancel : request} {σ' : Nat}
    (hok : NewCancelRequest cancelID req f σ = .ok (cancel, σ')) :
    ∀ i ∈ headersIds cancel.headers, σ ≤ i := by
  obtain ⟨hop, hvia, hcan, hσ'⟩ := newCancel_ok_inv hok
  have hbase : ((cancelBase cancelID req f σ).1).headers = [] := by
    simp [cancelBase, newRequest_headers]
  have hσ1 : σ ≤ (cancelBase cancelID req f σ).2 := newRequest_snd_ge _ _ _ _ _ _ _ _
  intro i hi
  rw [hcan, headers_set, headersIds_setCSeqMethod, headersIds_append,
    headersIds_append, hbase, headersIds_nil] at hi
  simp only [List.nil_append, List.mem_append, headersIds_cons, headersIds_nil,
    List.append_nil, Header.ids, List.singleton_append, List.mem_cons,
    List.not_mem_nil, or_false] at hi
  rcases hi with h1 | h2
  · omega
  · have := cancelTail_ids_ge req ((cancelBase cancelID req f σ).2 + 1) i h2
    omega

theorem clone_allIds_ge (req : request) (σ : Nat) :
    ∀ i ∈ ((req.Clone σ).1).allIds, σ ≤ i := by
  intro i hi
  have hrec : ((req.Clone σ).1).recipient = (req.recipient.Clone σ).1 := by
    simp [request.Clone, newRequest_recipient]
  have hhs : ((req.Clone σ).1).headers
      = (CloneHeaders req.headers (req.recipient.Clone σ).2).1 := by
    simp [request.Clone, newRequest_headers]
  unfold request.allIds at hi
  rw [hrec, hhs, uriClone_uid] at hi
  rcases List.mem_cons.mp hi with h1 | h2
  · omega
  · have := ((cloneHeaders_ids _ _) i h2).1
    have h3 := uriClone_snd req.recipient σ
    omega

theorem copy_allIds_ge (req : request) (σ : Nat) :
    ∀ i ∈ ((CopyRequest req σ).1).allIds, σ ≤ i := by
  intro i hi
  have hrec : ((CopyRequest req σ).1).recipient
      = (req.recipient.Clone (CloneHeaders req.headers σ).2).1 := by
    simp [CopyRequest, newRequest_recipient]
  have hhs : ((CopyRequest req σ).1).headers = (CloneHeaders req.headers σ).1 := by
    simp [CopyRequest, newRequest_headers]
  unfold request.allIds at hi
  rw [hrec, hhs, uriClone_uid] at hi
  have h3 := cloneHeaders_snd req.headers σ
  rcases List.mem_cons.mp hi with h1 | h2
  · omega
  · have := ((cloneHeaders_ids _ _) i h2).1
    omega

theorem touchU_headers_of_notMem {i : Nat} {r : request}
    (hm : i ∉ headersIds r.headers) : ((r.touchU i)).headers = r.headers := by
  show r.headers.map (Header.touchUri i) = r.headers
  refine map_eq_self_of ?_
  intro h ha
  refine headerTouchUri_of_notMem ?_
  intro hin
  refine hm ?_
  simp only [headersIds]
  exact List.mem_flatten.mpr ⟨h.ids, List.mem_map_of_mem _ ha, hin⟩

theorem touchH_of_notMem_headers {i : Nat} {r : request}
    (hm : i ∉ headersIds r.headers) : r.touchH i = r := by
  unfold request.touchH
  have hhdrs : r.headers.map (Header.touchHdr i) = r.headers := by
    refine map_eq_self_of ?_
    intro h ha
    refine headerTouchHdr_of_notMem ?_
    intro hin
    refine hm ?_
    simp only [headersIds]
    exact List.mem_flatten.mpr ⟨h.ids, List.mem_map_of_mem _ ha, hin⟩
  rw [hhdrs]

/-- C9 (amended): under copy-on-derive, every header (and every URI
inside a header) of a derived request is freshly allocated, so a heap
write through any of the derived request's objects leaves the source
request unchanged, and conversely a heap write through any of the source
request's objects leaves the derived request's headers unchanged; for
`Clone`/`CopyRequest`, which also clone the recipient, the two requests
are fully independent.  `NewAckRequest` and `NewCancelRequest` however
pass the recipient URI through without cloning: the ACK's recipient is
the response's Contact address (or, when Contact is absent, the original
request's recipient) and the CANCEL's recipient is the original's
recipient — the same object, not an independent copy, so only the
aliased recipient escapes the converse direction on those two paths. -/
theorem derivations_independent_except_aliased_recipient
    (req : request) (resp : response) (f : Fields) (σ : Nat)
    (hwf : req.IdsLt σ) :
    ((∀ i ∈ ((req.Clone σ).1).allIds,
        req.touchU i = req ∧ req.touchH i = req) ∧
     (∀ i ∈ req.allIds,
        ((req.Clone σ).1).touchU i = (req.Clone σ).1 ∧
        ((req.Clone σ).1).touchH i = (req.Clone σ).1)) ∧
    ((∀ i ∈ ((CopyRequest req σ).1).allIds,
        req.touchU i = req ∧ req.touchH i = req) ∧
     (∀ i ∈ req.allIds,
        ((CopyRequest req σ).1).touchU i = (CopyRequest req σ).1 ∧
        ((CopyRequest req σ).1).touchH i = (CopyRequest req σ).1)) ∧
    (∀ ack σ', NewAckRequest none req resp f σ = .ok (ack, σ') →
      (∀ i ∈ headersIds ack.headers, req.touchU i = req ∧ req.touchH i = req) ∧
      (∀ i ∈ req.allIds,
        ((ack.touchU i)).headers = ack.headers ∧ ack.touchH i = ack) ∧
      (contactAddrOf resp = none → ack.recipient = req.recipient)) ∧
    (∀ cancel σ', NewCancelRequest none req f σ = .ok (cancel, σ') →
      (∀ i ∈ headersIds cancel.headers, req.touchU i = req ∧ req.touchH i = req) ∧
      (∀ i ∈ req.allIds,
        ((cancel.touchU i)).headers = cancel.headers ∧ cancel.touchH i = cancel) ∧
      cancel.recipient = req.recipient) := by
  obtain ⟨hids, hmid⟩ := hwf
  have hout : ∀ i, σ ≤ i → req.touchU i = req ∧ req.touchH i = req := by
    intro i hge
    have hnm : i ∉ req.allIds := fun hm => by
      have := hids i hm
      omega
    exact ⟨touchU_of_notMem hnm, touchH_of_notMem hnm⟩
  refine ⟨⟨?_, ?_⟩, ⟨?_, ?_⟩, ?_, ?_⟩
  · intro i hi
    exact hout i (clone_allIds_ge req σ i hi)
  · intro i hi
    have hnm : i ∉ ((req.Clone σ).1).allIds := fun hm => by
      have h1 := clone_allIds_ge req σ i hm
      have h2 := hids i hi
      omega
    exact ⟨touchU_of_notMem hnm, touchH_of_notMem hnm⟩
  · intro i hi
    exact hout i (copy_allIds_ge req σ i hi)
  · intro i hi
    have hnm : i ∉ ((CopyRequest req σ).1).allIds := fun hm => by
      have h1 := copy_allIds_ge req σ i hm
      have h2 := hids i hi
      omega
    exact ⟨touchU_of_notMem hnm, touchH_of_notMem hnm⟩
  · intro ack σ' hok
    refine ⟨?_, ?_, ?_⟩
    · intro i hi
      exact hout i (newAck_headersIds_ge hok i hi)
    · intro i hi
      have hnm : i ∉ headersIds ack.headers := fun hm => by
        have h1 := newAck_headersIds_ge hok i hm
        have h2 := hids i hi
        omega
      exact ⟨touchU_headers_of_notMem hnm, touchH_of_notMem_headers hnm⟩
    · intro hc
      obtain ⟨routes, σ4, hroutes, hack, hσ⟩ := newAck_ok_inv hok
      rw [hack]
      show ((ackBase none req resp f σ).1).recipient = req.recipient
      simp [ackBase, newRequest_recipient, ackRecipient, hc]
  · intro cancel σ' hok
    obtain ⟨hop, hvia, hcan, hσ'⟩ := newCancel_ok_inv hok
    refine ⟨?_, ?_, ?_⟩
    · intro i hi
      exact hout i (newCancel_headersIds_ge hok i hi)
    · intro i hi
      have hnm : i ∉ headersIds cancel.headers := fun hm => by
        have h1 := newCancel_headersIds_ge hok i hm
        have h2 := hids i hi
        omega
      exact ⟨touchU_headers_of_notMem hnm, touchH_of_notMem_headers hnm⟩
    · rw [hcan]
      show ((cancelBase none req f σ).1).recipient = req.recipient
      simp [cancelBase, newRequest_recipient]

/-- C9 counterexample: the CANCEL's recipient URI is the very same object
as the original request's (same allocation identity, not a clone), and so
is the ACK's when the response lacks a Contact — a heap write through
that identity changes the original request, refuting "URIs (including
the recipient) are deep-cloned" on these derivation paths. -/
theorem derived_recipient_aliases_source :
    wCancel.recipient = wReq.recipient ∧
    cAck.recipient = wReq.recipient ∧
    request.touchU (wCancel.recipient.uid) wReq ≠ wReq ∧
    (request.touchU (wCancel.recipient.uid) wReq).recipient
      ≠ wReq.recipient := by
  decide

/-- Witness for the amended C9 at the concrete fixtures. -/
theorem derivations_independent_except_aliased_recipient_witness :
    wReq.IdsLt 100 ∧
    (((∀ i ∈ ((wReq.Clone 100).1).allIds,
        wReq.touchU i = wReq ∧ wReq.touchH i = wReq) ∧
      (∀ i ∈ wReq.allIds,
        ((wReq.Clone 100).1).touchU i = (wReq.Clone 100).1 ∧
        ((wReq.Clone 100).1).touchH i = (wReq.Clone 100).1)) ∧
     ((∀ i ∈ ((CopyRequest wReq 100).1).allIds,
        wReq.touchU i = wReq ∧ wReq.touchH i = wReq) ∧
      (∀ i ∈ wReq.allIds,
        ((CopyRequest wReq 100).1).touchU i = (CopyRequest wReq 100).1 ∧
        ((CopyRequest wReq 100).1).touchH i = (CopyRequest wReq 100).1)) ∧
     (∀ ack σ', NewAckRequest none wReq wResp [] 100 = .ok (ack, σ') →
       (∀ i ∈ headersIds ack.headers,
         wReq.touchU i = wReq ∧ wReq.touchH i = wReq) ∧
       (∀ i ∈ wReq.allIds,
         ((ack.touchU i)).headers = ack.headers ∧ ack.touchH i = ack) ∧
       (contactAddrOf wResp = none → ack.recipient = wReq.recipient)) ∧
     (∀ cancel σ', NewCancelRequest none wReq [] 100 = .ok (cancel, σ') →
       (∀ i ∈ headersIds cancel.headers,
         wReq.touchU i = wReq ∧ wReq.touchH i = wReq) ∧
       (∀ i ∈ wReq.allIds,
         ((cancel.touchU i)).headers = cancel.headers ∧ cancel.touchH i = cancel) ∧
       cancel.recipient = wReq.recipient)) :=
  ⟨by decide,
   derivations_independent_except_aliased_recipient wReq wResp [] 100 (by decide)⟩

end Gosip
